import Mathlib

/-!
# AntiTriskelBot: a shallow embedding of `src/index.js`

The bot keeps five module-level variables (`voiceConnection`, `conditionsMet`,
`checkInProgress`, `audioPlaylist`, `audioIndex`) and one audio player.  They
are the fields of `State`.  Everything the program learns from outside (the
Discord client, the Kick API, the file system, the voice library) is an
oracle held in `World`.  A JavaScript function becomes a `JS α`: a function
from the state to a `Res α`, which is a normal return, a thrown exception or
divergence (the fuel of the one recursive function ran out).

The model adds one ghost field, `trace`: the chronological list of the
calls between functions of the program, the calls to the outside and the
console lines.  `await` is modelled sequentially: no other callback runs
between the start and the end of an activation.

A statement that stands in a `try` block of the source can throw here; its
`catch` is the `tryCatch` of the model.  Registering a listener changes no
variable and is not recorded.  The listener of `VoiceConnectionStatus.Disconnected`
(lines 209 to 219) only calls `disconnectFromVoice`; the handler of `SIGINT`
(lines 304 to 310) calls it and ends the process.

The states the program can be in are those of `Reachable`: from the state at
load, any number of runs of the callbacks (the evaluation, the Idle listener,
the retry timer, the Disconnected listener), each run to its end, and any
change of status that the voice library makes to the player or to the handle
that is held.
-/

namespace AntiTriskelBot

/-! ## Values of the outside world -/

/-- Values produced by `response.json()`. -/
inductive Json where
  | null
  | bool (b : Bool)
  | num (n : Int)
  | str (s : String)
  | arr (items : List Json)
  | obj (fields : List (String × Json))

/-- JavaScript truthiness, as used by `&&` and `Boolean(...)`. -/
def jsTruthy : Json → Bool
  | .null => false
  | .bool b => b
  | .num n => n != 0
  | .str s => s != ""
  | .arr _ => true
  | .obj _ => true

/-- Property read `v.key`; `none` is `undefined`.  Only objects parsed from
JSON have own properties named `livestream` or `is_live`. -/
def getProp : Json → String → Option Json
  | .obj fields, key => fields.lookup key
  | _, _ => none

/-- Optional chaining `v?.key`. -/
def optChain : Json → String → Option Json
  | .null, _ => none
  | v, key => getProp v key

/-- Nullish coalescing `v ?? d`. -/
def nullishOr : Option Json → Json → Json
  | none, d => d
  | some .null, d => d
  | some v, _ => v

/-- The value `data?.livestream ?? null` of line 84. -/
def livestreamOf (data : Json) : Json := nullishOr (optChain data "livestream") .null

/-- The value `livestream.is_live ?? true` of line 86. -/
def isLiveOf (livestream : Json) : Json := nullishOr (getProp livestream "is_live") (.bool true)

/-- What a JavaScript `catch` can tell about the exception: its `name`. -/
inductive JsError where
  | abortError
  | other
  deriving DecidableEq, Repr

/-- Outcome of `await response.json()`. -/
inductive BodyOutcome where
  | parsed (data : Json)
  | parseError
  | aborted

/-- Outcome of `await fetch(...)` on the Kick API. -/
inductive KickFetch where
  | aborted
  | failed
  | response (ok : Bool) (status : Nat) (body : BodyOutcome)

inductive VoiceConnectionStatus where
  | Signalling
  | Connecting
  | Ready
  | Disconnected
  | Destroyed
  deriving DecidableEq, Repr

inductive AudioPlayerStatus where
  | Idle
  | Buffering
  | Playing
  | Paused
  | AutoPaused
  deriving DecidableEq, Repr

/-- A voice connection handle: its `state.status`, and whether `destroy()`
throws when called on it. -/
structure VoiceConnection where
  status : VoiceConnectionStatus
  destroyThrows : Bool
  deriving DecidableEq, Repr

/-- A channel object; the program reads only `channel.type`. -/
structure Channel where
  type : String
  deriving DecidableEq, Repr

/-- A guild, with the answers it gives to the three queries of the program. -/
structure Guild where
  id : String
  /-- Result of `guild.channels.cache.get(TARGET_VOICE_CHANNEL_ID)`. -/
  cachedChannel : Option Channel
  /-- Result of `guild.channels.fetch(...)`: `none` rejects, `some none` resolves to null. -/
  fetchedChannel : Option (Option Channel)
  /-- Result of `guild.members.fetch(TARGET_USER_ID)`: `none` rejects,
  `some c` resolves to a member whose `member?.voice?.channelId` is `c`. -/
  fetchedMember : Option (Option String)
  deriving DecidableEq, Repr

/-- A directory entry of `readdirSync(..., withFileTypes)`. -/
structure Dirent where
  name : String
  isFile : Bool
  deriving DecidableEq, Repr

structure Config where
  TARGET_VOICE_CHANNEL_ID : String
  AUDIO_DIRECTORY : String

/-- The outside world during one activation of the program. -/
structure World where
  config : Config
  /-- Answer of `client.guilds.cache.get(TARGET_GUILD_ID)`. -/
  cachedGuild : Option Guild
  /-- Answer of `client.guilds.fetch(TARGET_GUILD_ID)`; `none` rejects. -/
  fetchedGuild : Option Guild
  kick : KickFetch
  /-- Answer of `fs.readdirSync`; `none` throws. -/
  readdirSync : Option (List Dirent)
  /-- The comparator `a.localeCompare(b, undefined, sensitivity base)`. -/
  localeCompare : String → String → Int
  /-- Answer of `joinVoiceChannel`. -/
  joinVoiceChannel : Except JsError VoiceConnection
  /-- Whether `entersState(voiceConnection, Ready, 20000)` resolves. -/
  entersReady : Bool
  /-- Whether creating the stream and resource of a track and playing it returns normally. -/
  trackStarts : String → Bool

/-! ## Trace -/

inductive Fn where
  | evaluateConditions
  | getGuild
  | isKickLive
  | isTargetUserInVoice
  | refreshAudioPlaylist
  | playNextTrack
  | connectToVoice
  | disconnectFromVoice
  | onIdle
  | retryTimer
  deriving DecidableEq, Repr

inductive Level where
  | log
  | warn
  | error
  deriving DecidableEq, Repr

inductive Ev where
  /-- Function `caller` of the program calls function `callee` of the program. -/
  | call (caller callee : Fn)
  /-- A console line: its level and the constant part of its message. -/
  | console (level : Level) (msg : String)
  | guildsFetch
  | kickFetch
  | membersFetch
  | channelsFetch
  | readdir
  | joinVoiceChannel
  | subscribe
  | destroy
  | stop
  /-- The statement `createAudioResource(fs.createReadStream(track))`; `none` is an undefined track. -/
  | createAudioResource (track : Option String)
  /-- The call `audioPlayer.play(resource)` returned. -/
  | play (track : String)
  | setTimeout (ms : Nat)
  deriving DecidableEq, Repr

/-! ## State and results -/

structure State where
  voiceConnection : Option VoiceConnection
  conditionsMet : Bool
  checkInProgress : Bool
  audioPlaylist : List String
  audioIndex : Nat
  /-- The value of `audioPlayer.state.status`. -/
  audioPlayer : AudioPlayerStatus
  trace : List Ev
  deriving DecidableEq, Repr

inductive Res (α : Type) where
  | ok (a : α) (s : State)
  | threw (e : JsError) (s : State)
  | diverged

abbrev JS (α : Type) := State → Res α

/-! ## The control operators of JavaScript -/

def JS.pure {α : Type} (a : α) : JS α := fun s => .ok a s

def JS.bind {α β : Type} (m : JS α) (k : α → JS β) : JS β := fun s =>
  match m s with
  | .ok a s1 => k a s1
  | .threw e s1 => .threw e s1
  | .diverged => .diverged

instance : Monad JS where
  pure := JS.pure
  bind := JS.bind

/-- The statement `throw e`. -/
def throwJs {α : Type} (e : JsError) : JS α := fun s => .threw e s

/-- The statement `try body catch (error) handler`. -/
def tryCatch {α : Type} (body : JS α) (handler : JsError → JS α) : JS α := fun s =>
  match body s with
  | .threw e s1 => handler e s1
  | r => r

/-- The statement `try body finally cleanup`, for a cleanup that is a plain assignment. -/
def tryFinally {α : Type} (body : JS α) (cleanup : State → State) : JS α := fun s =>
  match body s with
  | .ok a s1 => .ok a (cleanup s1)
  | .threw e s1 => .threw e (cleanup s1)
  | .diverged => .diverged

def getState : JS State := fun s => .ok s s

def modifyState (f : State → State) : JS Unit := fun s => .ok () (f s)

/-- Appends one event to the trace. -/
def emit (e : Ev) : JS Unit := modifyState fun s => { s with trace := s.trace ++ [e] }

/-- Result of an outside call that may throw. -/
def liftExcept {α : Type} : Except JsError α → JS α
  | .ok a => JS.pure a
  | .error e => throwJs e

/-! ## The functions of `src/index.js` -/

/-- The try block of `isKickLive` (lines 70 to 86). -/
def isKickLiveTry (w : World) : JS Bool := do
  emit .kickFetch
  match w.kick with
  | .aborted => throwJs .abortError
  | .failed => throwJs .other
  | .response ok _ body =>
    if !ok then do
      emit (.console .error "Kick API request failed with status")
      pure false
    else
      match body with
      | .aborted => throwJs .abortError
      | .parseError => throwJs .other
      | .parsed data =>
        let livestream := livestreamOf data
        -- Boolean(livestream && (livestream.is_live ?? true))
        if jsTruthy livestream then
          pure (jsTruthy (isLiveOf livestream))
        else
          pure (jsTruthy livestream)

/-- The function `isKickLive` (lines 65 to 97). -/
def isKickLive (w : World) : JS Bool :=
  tryCatch (isKickLiveTry w) fun error => do
    if error = .abortError then
      emit (.console .warn "Kick API request timed out.")
    else
      emit (.console .error "Failed to check Kick live status:")
    pure false

/-- The function `getGuild` (lines 99 to 111). -/
def getGuild (w : World) : JS (Option Guild) :=
  match w.cachedGuild with
  | some cached => pure (some cached)
  | none =>
    tryCatch
      (do
        emit .guildsFetch
        match w.fetchedGuild with
        | some g => pure (some g)
        | none => throwJs .other)
      fun _ => do
        emit (.console .error "Unable to fetch target guild:")
        pure none

/-- The function `isTargetUserInVoice` (lines 113 to 121). -/
def isTargetUserInVoice (w : World) (guild : Guild) : JS Bool :=
  tryCatch
    (do
      emit .membersFetch
      match guild.fetchedMember with
      | some channelId => pure (decide (channelId = some w.config.TARGET_VOICE_CHANNEL_ID))
      | none => throwJs .other)
    fun _ => do
      emit (.console .error "Unable to fetch target member:")
      pure false

/-- The filter of line 127: a regular file whose lower-cased name ends in
`.mp3`.  No character outside ASCII lower-cases to one of the four characters
of the suffix, so lower-casing the ASCII letters decides the test. -/
def eligible (entry : Dirent) : Bool :=
  entry.isFile && (".mp3".toList).isSuffixOf (entry.name.toList.map Char.toLower)

/-- The array of lines 125 to 129: filter, map to the name, sort.
`Array.prototype.sort` is stable: it returns the one ordering of the input in
which `a` is before `b` whenever the comparator says so, and in which elements
that compare equal keep the order they came in.  For a comparator that is a
total preorder, as `localeCompare` is, that is the result of the stable
insertion sort with `a` before `b` when `compare(a, b) <= 0`. -/
def sortedNames (w : World) (entries : List Dirent) : List String :=
  ((entries.filter eligible).map fun entry => entry.name).insertionSort
    fun a b => w.localeCompare a b ≤ 0

/-- The call `path.join(AUDIO_DIRECTORY, file)` for a file name of the directory. -/
def pathJoin (dir file : String) : String := dir ++ "/" ++ file

/-- The function `refreshAudioPlaylist` (lines 123 to 142). -/
def refreshAudioPlaylist (w : World) : JS Unit :=
  tryCatch
    (do
      emit .readdir
      let entries ← (match w.readdirSync with
        | some entries => pure entries
        | none => throwJs .other : JS (List Dirent))
      let files := sortedNames w entries
      modifyState fun s =>
        { s with audioPlaylist := files.map (pathJoin w.config.AUDIO_DIRECTORY), audioIndex := 0 }
      let s ← getState
      if s.audioPlaylist.length = 0 then
        emit (.console .warn "No MP3 files found in audios/. The bot will not play anything.")
      else
        pure ())
    fun _ => do
      emit (.console .error "Failed to read audio directory:")
      modifyState fun s => { s with audioPlaylist := [], audioIndex := 0 }

/-- The try block of `playNextTrack` (lines 153 to 155). -/
def startTrack (w : World) (track : Option String) : JS Unit := do
  emit (.createAudioResource track)
  match track with
  | none => throwJs .other
  | some t =>
    if w.trackStarts t then do
      modifyState fun s => { s with audioPlayer := .Playing }
      emit (.play t)
      emit (.console .log "Now playing:")
    else
      throwJs .other

/-- The function `playNextTrack` (lines 144 to 170).  The first argument
bounds the depth of the recursion of line 167; at depth zero the result is
`diverged`. -/
def playNextTrackFuel (w : World) : Nat → JS Unit
  | 0 => fun _ => .diverged
  | fuel + 1 => do
    let s ← getState
    if s.audioPlaylist.length = 0 then
      pure ()
    else do
      let track := s.audioPlaylist[s.audioIndex]?
      modifyState fun s => { s with audioIndex := (s.audioIndex + 1) % s.audioPlaylist.length }
      tryCatch (startTrack w track) fun _ => do
        emit (.console .error "Failed to play track")
        let s ← getState
        if s.audioIndex = 0 then
          emit (.setTimeout 1000)
        else if s.conditionsMet && s.voiceConnection.isSome then do
          emit (.call .playNextTrack .playNextTrack)
          playNextTrackFuel w fuel
        else
          pure ()

/-- A bound on the depth of the recursion of `playNextTrack` from a state:
the number of tracks from the cursor to the end of the playlist, or one more
than the length of the playlist when the cursor is outside it. -/
def depthBound (s : State) : Nat :=
  if s.audioIndex < s.audioPlaylist.length then s.audioPlaylist.length - s.audioIndex
  else s.audioPlaylist.length + 1

/-- The function `playNextTrack`, with more fuel than the recursion can use:
by `playNextTrackFuel_ok` the run does not diverge, and by
`playNextTrackFuel_fuel_irrelevant` any larger fuel gives the same result. -/
def playNextTrack (w : World) : JS Unit := fun s =>
  playNextTrackFuel w (s.audioPlaylist.length + 1) s

/-- The callback given to `setTimeout` at line 161. -/
def retryTimer (w : World) : JS Unit := do
  let s ← getState
  if s.conditionsMet && s.voiceConnection.isSome then do
    emit (.call .retryTimer .playNextTrack)
    playNextTrack w
  else
    pure ()

/-- The method `voiceConnection.destroy()`: it throws, or it leaves the handle Destroyed. -/
def destroy (c : VoiceConnection) : JS Unit := do
  emit .destroy
  if c.destroyThrows then
    throwJs .other
  else
    modifyState fun s => { s with voiceConnection := some { c with status := .Destroyed } }

/-- The function `disconnectFromVoice` (lines 235 to 247).  When
`audioPlayer.stop(true)` makes the player emit Idle, the listener of line 47
runs with `voiceConnection` already null and returns at line 49; that empty
activation is not replayed here. -/
def disconnectFromVoice : JS Unit := do
  let s ← getState
  match s.voiceConnection with
  | some c => do
    tryCatch (destroy c) fun _ =>
      emit (.console .error "Error destroying voice connection:")
    modifyState fun s => { s with voiceConnection := none }
  | none => pure ()
  emit .stop
  modifyState fun s => { s with audioPlayer := .Idle }
  modifyState fun s => { s with audioIndex := 0 }

/-- The function `connectToVoice` (lines 172 to 233). -/
def connectToVoice (w : World) (guild : Guild) : JS Unit := do
  let channel ← (match guild.cachedChannel with
    | some c => pure (some c)
    | none => do
      emit .channelsFetch
      match guild.fetchedChannel with
      | some r => pure r
      | none => do
        emit (.console .error "Unable to fetch target voice channel:")
        pure none : JS (Option Channel))
  match channel with
  | none => emit (.console .error "Target voice channel not found.")
  | some channel =>
    if channel.type ≠ "GUILD_VOICE" ∧ channel.type ≠ "GUILD_STAGE_VOICE" then
      emit (.console .error "Target channel is not a voice-capable channel.")
    else do
      emit (.call .connectToVoice .refreshAudioPlaylist)
      refreshAudioPlaylist w
      let s ← getState
      if s.audioPlaylist.length = 0 then
        emit (.console .warn "Skipping voice connection because the playlist is empty.")
      else do
        emit .joinVoiceChannel
        let connection ← liftExcept w.joinVoiceChannel
        modifyState fun s => { s with voiceConnection := some connection }
        tryCatch
          (do
            if w.entersReady then
              modifyState fun s =>
                { s with voiceConnection := s.voiceConnection.map fun c => { c with status := .Ready } }
            else
              throwJs .other
            emit .subscribe
            emit (.console .log "Connected to voice channel. Starting playback.")
            let s ← getState
            if s.audioPlayer = .Idle then do
              emit (.call .connectToVoice .playNextTrack)
              playNextTrack w
            else
              pure ())
          fun _ => do
            emit (.console .error "Failed to establish voice connection:")
            emit (.call .connectToVoice .disconnectFromVoice)
            disconnectFromVoice

/-- The branch on `shouldConnect` in `evaluateConditions` (lines 269 to 284). -/
def evaluateConditionsAct (w : World) (guild : Guild) (shouldConnect : Bool) : JS Unit := do
  if shouldConnect then do
    modifyState fun s => { s with conditionsMet := true }
    let s ← getState
    -- !voiceConnection || voiceConnection.state.status === Destroyed
    if s.voiceConnection.all (fun c => c.status = .Destroyed) then do
      emit (.call .evaluateConditions .connectToVoice)
      connectToVoice w guild
    else if s.audioPlayer = .Idle && s.audioPlaylist.length > 0 then do
      emit (.call .evaluateConditions .playNextTrack)
      playNextTrack w
    else
      pure ()
  else do
    let s ← getState
    if s.conditionsMet then
      emit (.console .log "Conditions not met. Leaving voice channel if connected.")
    else
      pure ()
    modifyState fun s => { s with conditionsMet := false }
    emit (.call .evaluateConditions .disconnectFromVoice)
    disconnectFromVoice

/-- The try block of `evaluateConditions` (lines 257 to 284).  The two
members of `Promise.all` are started in the order written, before either
result is looked at. -/
def evaluateConditionsTry (w : World) : JS Unit := do
  emit (.call .evaluateConditions .getGuild)
  let guild ← getGuild w
  emit (.call .evaluateConditions .isKickLive)
  let live ← isKickLive w
  match guild with
  | none => do
    emit (.console .warn "Target guild unavailable.")
    modifyState fun s => { s with conditionsMet := false }
    emit (.call .evaluateConditions .disconnectFromVoice)
    disconnectFromVoice
  | some guild => do
    emit (.call .evaluateConditions .isTargetUserInVoice)
    let userInVoice ← isTargetUserInVoice w guild
    let shouldConnect := live && userInVoice
    evaluateConditionsAct w guild shouldConnect

/-- The function `evaluateConditions` (lines 249 to 290). -/
def evaluateConditions (w : World) : JS Unit := do
  let s ← getState
  if s.checkInProgress then
    pure ()
  else do
    modifyState fun s => { s with checkInProgress := true }
    tryFinally
      (tryCatch (evaluateConditionsTry w) fun _ =>
        emit (.console .error "Failed to evaluate conditions:"))
      fun s => { s with checkInProgress := false }

/-- The listener of `AudioPlayerStatus.Idle` (lines 47 to 59). -/
def onIdle (w : World) : JS Unit := do
  let s ← getState
  if !s.conditionsMet || !s.voiceConnection.isSome then
    pure ()
  else if s.audioPlaylist.length = 0 then do
    emit (.console .warn "Audio playlist is empty. Disconnecting from voice channel.")
    emit (.call .onIdle .disconnectFromVoice)
    disconnectFromVoice
  else do
    emit (.call .onIdle .playNextTrack)
    playNextTrack w

/-- The caller of the statement "the k-th call to playNextTrack": `k` calls in a row. -/
def playNextTrackTimes (w : World) : Nat → JS Unit
  | 0 => pure ()
  | k + 1 => do
    playNextTrackTimes w k
    playNextTrack w

/-! ## Reading the trace -/

/-- The functions of the program that `f` itself calls, in order. -/
def callsBy (f : Fn) (tr : List Ev) : List Fn :=
  tr.filterMap fun e =>
    match e with
    | .call caller callee => if caller = f then some callee else none
    | _ => none

/-- The tracks handed to `createAudioResource(fs.createReadStream(track))`, in order. -/
def attempts (tr : List Ev) : List (Option String) :=
  tr.filterMap fun e =>
    match e with
    | .createAudioResource track => some track
    | _ => none

/-- The delays of the timers set, in order. -/
def timers (tr : List Ev) : List Nat :=
  tr.filterMap fun e =>
    match e with
    | .setTimeout ms => some ms
    | _ => none

/-- An event that a function called by the evaluator can add: anything but a
call made by a function other than `connectToVoice` and the recursion of `playNextTrack`. -/
def Ev.internal : Ev → Bool
  | .call .connectToVoice _ => true
  | .call .playNextTrack .playNextTrack => true
  | .call _ _ => false
  | _ => true

/-- What a function called by the evaluator does to the state, seen from the
evaluator: `conditionsMet` is left alone and internal events are appended. -/
def Inner (s s1 : State) : Prop :=
  s1.conditionsMet = s.conditionsMet ∧
    ∃ evs, s1.trace = s.trace ++ evs ∧ ∀ e ∈ evs, Ev.internal e = true

/-- The run of `m` from any state ends, by a return or a throw, in a state related to the first by `R`. -/
structure Keeps {α : Type} (R : State → State → Prop) (m : JS α) : Prop where
  run : ∀ s, (∃ a s1, m s = .ok a s1 ∧ R s s1) ∨ (∃ e s1, m s = .threw e s1 ∧ R s s1)

/-- The program variables of a state: the trace is forgotten. -/
def State.vars (s : State) : State := { s with trace := [] }

/-- The value a run returned, if it returned. -/
def Res.value? {α : Type} : Res α → Option α
  | .ok a _ => some a
  | _ => none

/-- The state after a run that returned or threw. -/
def Res.final? {α : Type} : Res α → Option State
  | .ok _ s => some s
  | .threw _ s => some s
  | .diverged => none

/-! ## The wording of the specification, for comparison -/

/-- The condition under which the specification says `isKickLive` is true,
word for word: a success status, a body that parses, a livestream record (a
JSON object under `livestream`) whose `is_live` member is absent or `true`. -/
def claimedLive : KickFetch → Bool
  | .response true _ (.parsed data) =>
    match getProp data "livestream" with
    | some (.obj fields) =>
      match fields.lookup "is_live" with
      | none => true
      | some (.bool true) => true
      | some _ => false
    | _ => false
  | _ => false

/-- Bodies of the shape the Kick API documents: `livestream` is absent, null
or an object, and `is_live`, when the object has it, is a boolean. -/
def wellTypedBody (data : Json) : Bool :=
  match getProp data "livestream" with
  | none => true
  | some .null => true
  | some (.obj fields) =>
    match fields.lookup "is_live" with
    | none => true
    | some (.bool _) => true
    | some _ => false
  | some _ => false

/-! ## Concrete inputs -/

def exampleConfig : Config :=
  { TARGET_VOICE_CHANNEL_ID := "1000397725231235205", AUDIO_DIRECTORY := "/app/audios" }

/-- A voice-capable target channel, a member sitting in it. -/
def exampleGuild : Guild :=
  { id := "261939673662750721"
    cachedChannel := some { type := "GUILD_VOICE" }
    fetchedChannel := none
    fetchedMember := some (some "1000397725231235205") }

/-- The letters of a name with the case of ASCII letters removed. -/
def caseKey (a : String) : List Nat := a.toList.map fun c => c.toLower.toNat

/-- A comparator that ignores the case of ASCII letters, as sensitivity base does. -/
def baseCompare (a b : String) : Int :=
  if caseKey a < caseKey b then -1 else if caseKey a = caseKey b then 0 else 1

/-- A world in which every answer is the favourable one: the guild is cached,
the stream is live, the user is in the room, three tracks are on disk and start. -/
def exampleWorld : World :=
  { config := exampleConfig
    cachedGuild := some exampleGuild
    fetchedGuild := none
    kick := .response true 200 (.parsed (.obj [("livestream", .obj [("is_live", .bool true)])]))
    readdirSync := some [⟨"b.mp3", true⟩, ⟨"a.mp3", true⟩, ⟨"c.mp3", true⟩]
    localeCompare := baseCompare
    joinVoiceChannel := .ok { status := .Signalling, destroyThrows := false }
    entersReady := true
    trackStarts := fun _ => true }

/-- The variables of the program when the module has just been loaded (lines 39 to 43). -/
def initialState : State :=
  { voiceConnection := none, conditionsMet := false, checkInProgress := false
    audioPlaylist := [], audioIndex := 0, audioPlayer := .Idle, trace := [] }

/-- A session in progress: connected, three tracks, the second one is next. -/
def connectedState : State :=
  { voiceConnection := some { status := .Ready, destroyThrows := false }
    conditionsMet := true, checkInProgress := false
    audioPlaylist := ["/app/audios/a.mp3", "/app/audios/b.mp3", "/app/audios/c.mp3"]
    audioIndex := 1, audioPlayer := .Playing, trace := [] }

/-! ## The states the program can be in -/

/-- One step of the running program: one of its callbacks run to its end, or
a change that a library makes to an object the program holds.  The handler of
`SIGINT` ends the process and starts no step. -/
inductive Step : State → State → Prop where
  /-- A run of `evaluateConditions` (lines 294 and 296). -/
  | tick (w : World) {s s1 : State} (h : (evaluateConditions w s).final? = some s1) : Step s s1
  /-- A run of the listener of `AudioPlayerStatus.Idle` (line 47). -/
  | idle (w : World) {s s1 : State} (h : (onIdle w s).final? = some s1) : Step s s1
  /-- A run of the callback of the timer of line 161. -/
  | retry (w : World) {s s1 : State} (h : (retryTimer w s).final? = some s1) : Step s s1
  /-- The listener of `VoiceConnectionStatus.Disconnected` gives up (line 217). -/
  | disconnected {s s1 : State} (h : (disconnectFromVoice s).final? = some s1) : Step s s1
  /-- The audio player changes its status. -/
  | player (s : State) (status : AudioPlayerStatus) : Step s { s with audioPlayer := status }
  /-- The voice library changes the handle the program holds. -/
  | connection (s : State) (c c1 : VoiceConnection) (h : s.voiceConnection = some c) :
      Step s { s with voiceConnection := some c1 }

/-- The states reached from the loaded module by any number of steps. -/
inductive Reachable : State → Prop where
  | start : Reachable initialState
  | step {s s1 : State} (h : Reachable s) (hs : Step s s1) : Reachable s1

/-- With no connection held the cursor is at 0. -/
def Parked (s : State) : Prop := s.voiceConnection = none → s.audioIndex = 0

/-- A run that keeps `Parked`. -/
def Safe (s s1 : State) : Prop := Parked s → Parked s1

/-- A run that does not drop a held handle. -/
def HeldStays (s s1 : State) : Prop :=
  s.voiceConnection.isSome = true → s1.voiceConnection.isSome = true

/-! # Theorems -/

/-! ## Runs of the leaf functions -/

theorem isKickLive_run (w : World) :
    ∃ b logs, (∀ e ∈ logs, ∃ l m, e = Ev.console l m) ∧
      (∀ t : State, isKickLive w t = .ok b { t with trace := t.trace ++ Ev.kickFetch :: logs }) ∧
      (b = true ↔ ∃ status data, w.kick = .response true status (.parsed data) ∧
        jsTruthy (livestreamOf data) = true ∧ jsTruthy (isLiveOf (livestreamOf data)) = true) := by
  rcases hk : w.kick with _ | _ | ⟨ok, status, body⟩
  · refine ⟨false, [.console .warn "Kick API request timed out."], by simp, fun t => ?_, by simp⟩
    simp [isKickLive, isKickLiveTry, hk, tryCatch, throwJs, bind, JS.bind, pure, JS.pure, emit, modifyState]
  · refine ⟨false, [.console .error "Failed to check Kick live status:"], by simp, fun t => ?_, by simp⟩
    simp [isKickLive, isKickLiveTry, hk, tryCatch, throwJs, bind, JS.bind, pure, JS.pure, emit, modifyState]
  · cases ok
    · refine ⟨false, [.console .error "Kick API request failed with status"], by simp, fun t => ?_, by simp⟩
      simp [isKickLive, isKickLiveTry, hk, tryCatch, throwJs, bind, JS.bind, pure, JS.pure, emit, modifyState]
    · rcases body with data | _ | _
      · by_cases hl : jsTruthy (livestreamOf data) = true
        · refine ⟨jsTruthy (isLiveOf (livestreamOf data)), [], by simp, fun t => ?_, ?_⟩
          rotate_left
          · constructor
            · intro h
              exact ⟨status, data, rfl, hl, h⟩
            · rintro ⟨_, _, h, -, h2⟩
              cases h
              exact h2
          simp [isKickLive, isKickLiveTry, hk, hl, tryCatch, throwJs, bind, JS.bind, pure, JS.pure, emit, modifyState]
        · refine ⟨false, [], by simp, fun t => ?_, ?_⟩
          rotate_left
          · constructor
            · intro h
              cases h
            · rintro ⟨_, _, h, h1, -⟩
              cases h
              exact absurd h1 hl
          simp [isKickLive, isKickLiveTry, hk, hl, tryCatch, throwJs, bind, JS.bind, pure, JS.pure, emit, modifyState]
      · refine ⟨false, [.console .error "Failed to check Kick live status:"], by simp, fun t => ?_, by simp⟩
        simp [isKickLive, isKickLiveTry, hk, tryCatch, throwJs, bind, JS.bind, pure, JS.pure, emit, modifyState]
      · refine ⟨false, [.console .warn "Kick API request timed out."], by simp, fun t => ?_, by simp⟩
        simp [isKickLive, isKickLiveTry, hk, tryCatch, throwJs, bind, JS.bind, pure, JS.pure, emit, modifyState]

theorem disconnectFromVoice_run (vc : Option VoiceConnection) :
    ∃ evs, (∀ e ∈ evs, e = Ev.destroy ∨ ∃ m, e = Ev.console .error m) ∧
      (vc = none → evs = []) ∧
      ∀ t : State, t.voiceConnection = vc → disconnectFromVoice t = .ok ()
        { t with voiceConnection := none, audioPlayer := .Idle, audioIndex := 0
                 trace := t.trace ++ (evs ++ [Ev.stop]) } := by
  cases vc with
  | none =>
    refine ⟨[], by simp, by simp, ?_⟩
    rintro ⟨vc, cm, cip, pl, idx, ap, tr⟩ h
    simp only at h
    subst h
    simp [disconnectFromVoice, bind, JS.bind, getState, pure, JS.pure, emit, modifyState]
  | some c =>
    rcases c with ⟨st, dt⟩
    cases dt
    · refine ⟨[.destroy], by simp, by simp, ?_⟩
      rintro ⟨vc, cm, cip, pl, idx, ap, tr⟩ h
      simp only at h
      subst h
      simp [disconnectFromVoice, destroy, tryCatch, throwJs, bind, JS.bind, getState, pure,
          JS.pure, emit, modifyState]
    · refine ⟨[.destroy, .console .error "Error destroying voice connection:"], by simp, by simp, ?_⟩
      rintro ⟨vc, cm, cip, pl, idx, ap, tr⟩ h
      simp only at h
      subst h
      simp [disconnectFromVoice, destroy, tryCatch, throwJs, bind, JS.bind, getState, pure,
          JS.pure, emit, modifyState]

/-! ## C4 -/

/-- C4 (single-flight): when `checkInProgress` is true, `evaluateConditions`
returns at once and the state, trace included, is the one it was called in.
No guild resolution, no probe, no call to `connectToVoice`, `playNextTrack`
or `disconnectFromVoice` happens, and no variable changes. -/
theorem evaluateConditions_single_flight (w : World) (s : State) (h : s.checkInProgress = true) :
    evaluateConditions w s = .ok () s := by
  simp [evaluateConditions, bind, JS.bind, getState, h, pure, JS.pure]

theorem evaluateConditions_single_flight_witness :
    evaluateConditions exampleWorld { connectedState with checkInProgress := true }
      = .ok () { connectedState with checkInProgress := true } :=
  evaluateConditions_single_flight exampleWorld { connectedState with checkInProgress := true } rfl

/-! ## C7 -/

/-- C7, as stated, fails: the stream goes offline during a session, the next
evaluation clears `conditionsMet` and disconnects, and the player, stopped,
reports Idle.  The handler then finds `conditionsMet` false and returns at
line 48: it does not call `disconnectFromVoice`, nothing is stopped, the state
is the one it was called in.  The same holds when the module has just been
loaded. -/
theorem onIdle_returns_on_false_decision :
    ∃ s1 s2, evaluateConditions exampleWorld initialState = .ok () s1 ∧
      evaluateConditions { exampleWorld with kick := .failed } s1 = .ok () s2 ∧
      Reachable s2 ∧ s2.conditionsMet = false ∧ s2.audioPlayer = .Idle ∧
      onIdle exampleWorld s2 = .ok () s2 ∧
      Ev.call .onIdle .disconnectFromVoice ∉ s2.trace ∧
      (∃ s3, disconnectFromVoice s2 = .ok () s3 ∧ s3 ≠ s2) ∧
      initialState.conditionsMet = false ∧
      onIdle exampleWorld initialState = .ok () initialState :=
  ⟨_, _, rfl, rfl,
    Reachable.step (Reachable.step Reachable.start (Step.tick exampleWorld rfl))
      (Step.tick { exampleWorld with kick := .failed } rfl),
    rfl, rfl, rfl, by decide, ⟨_, rfl, by decide⟩, rfl, rfl⟩

/-- C7 (playback-idle listener), amended: when the player reports Idle, the
listener does nothing at all if `conditionsMet` is false or no connection is
held (the state, trace included, is unchanged); otherwise, if the playlist is
empty, it logs the warning and calls `disconnectFromVoice`; otherwise it calls
`playNextTrack`. -/
theorem onIdle_cases (w : World) (s : State) :
    ((s.conditionsMet = false ∨ s.voiceConnection = none) → onIdle w s = .ok () s) ∧
    (s.conditionsMet = true → s.voiceConnection ≠ none → s.audioPlaylist = [] →
      onIdle w s = disconnectFromVoice { s with trace := s.trace ++
        [Ev.console .warn "Audio playlist is empty. Disconnecting from voice channel.",
         Ev.call .onIdle .disconnectFromVoice] }) ∧
    (s.conditionsMet = true → s.voiceConnection ≠ none → s.audioPlaylist ≠ [] →
      onIdle w s = playNextTrack w { s with trace := s.trace ++ [Ev.call .onIdle .playNextTrack] }) := by
  refine ⟨?_, ?_, ?_⟩
  · rintro (h | h) <;> simp [onIdle, bind, JS.bind, getState, h, pure, JS.pure]
  · intro hc hv hp
    obtain ⟨c, hc2⟩ := Option.ne_none_iff_exists'.mp hv
    simp [onIdle, bind, JS.bind, getState, hc, hc2, hp, emit, modifyState]
  · intro hc hv hp
    obtain ⟨c, hc2⟩ := Option.ne_none_iff_exists'.mp hv
    simp [onIdle, bind, JS.bind, getState, hc, hc2, hp, emit, modifyState]

theorem onIdle_cases_witness :
    onIdle exampleWorld connectedState
      = playNextTrack exampleWorld
          { connectedState with trace := connectedState.trace ++ [Ev.call .onIdle .playNextTrack] } :=
  (onIdle_cases exampleWorld connectedState).2.2 rfl (by decide) (by decide)

/-! ## C8 -/

/-- C8, as stated, fails: with the guild neither cached nor fetchable, the
cycle still calls `isKickLive`, which queries the Kick API. -/
theorem evaluateConditions_queries_kick_without_guild :
    ({ exampleWorld with cachedGuild := none, fetchedGuild := none } : World).cachedGuild = none ∧
    ({ exampleWorld with cachedGuild := none, fetchedGuild := none } : World).fetchedGuild = none ∧
    ∃ s1, evaluateConditions { exampleWorld with cachedGuild := none, fetchedGuild := none } connectedState
        = .ok () s1 ∧
      Ev.call .evaluateConditions .isKickLive ∈ s1.trace ∧ Ev.kickFetch ∈ s1.trace :=
  ⟨rfl, rfl, _, rfl, by decide, by decide⟩

/-- C8 (guild-resolution failure), amended: in a cycle with the lock free in
which the guild is neither cached nor fetchable, `evaluateConditions` returns
with `conditionsMet` false, the lock released and no connection held; it has
called `getGuild`, `isKickLive` and `disconnectFromVoice`, in that order, and
nothing else: the livestream probe is queried (it is started together with the
guild resolution and its answer is dropped), the presence probe
`isTargetUserInVoice` is not invoked and no member is fetched. -/
theorem evaluateConditions_guild_unresolved (w : World) (s : State)
    (hlock : s.checkInProgress = false) (hcache : w.cachedGuild = none)
    (hfetch : w.fetchedGuild = none) :
    ∃ s1 evs, evaluateConditions w s = .ok () s1 ∧ s1.trace = s.trace ++ evs ∧
      s1.conditionsMet = false ∧ s1.checkInProgress = false ∧ s1.voiceConnection = none ∧
      callsBy .evaluateConditions evs = [.getGuild, .isKickLive, .disconnectFromVoice] ∧
      Ev.kickFetch ∈ evs ∧ Ev.membersFetch ∉ evs := by
  obtain ⟨b, logs, hlogs, hrun, -⟩ := isKickLive_run w
  have hg : ∀ t : State, getGuild w t = .ok none { t with trace := t.trace ++
      [Ev.guildsFetch, Ev.console .error "Unable to fetch target guild:"] } := by
    intro t
    simp [getGuild, hcache, hfetch, tryCatch, throwJs, bind, JS.bind, pure, JS.pure, emit, modifyState]
  obtain ⟨devs, hdevs, -, hdrun⟩ := disconnectFromVoice_run s.voiceConnection
  have hcalls_logs : callsBy .evaluateConditions logs = [] := by
    apply List.filterMap_eq_nil_iff.mpr
    intro e he
    obtain ⟨l, m, rfl⟩ := hlogs e he
    rfl
  have hcalls_devs : callsBy .evaluateConditions devs = [] := by
    apply List.filterMap_eq_nil_iff.mpr
    intro e he
    rcases hdevs e he with rfl | ⟨m, rfl⟩ <;> rfl
  rcases s with ⟨vc, cm, cip, pl, idx, ap, tr⟩
  simp only at hlock hdrun
  subst hlock
  refine ⟨⟨none, false, false, pl, 0, .Idle, tr ++
      ([Ev.call .evaluateConditions .getGuild, Ev.guildsFetch,
      Ev.console .error "Unable to fetch target guild:",
      Ev.call .evaluateConditions .isKickLive] ++ Ev.kickFetch :: logs ++
      [Ev.console .warn "Target guild unavailable.",
       Ev.call .evaluateConditions .disconnectFromVoice] ++ (devs ++ [Ev.stop]))⟩, _,
       ?_, rfl, rfl, rfl, rfl, ?_, ?_, ?_⟩
  · simp [evaluateConditions, evaluateConditionsTry, hg, hrun, hdrun, tryFinally, tryCatch, bind,
      JS.bind, getState, pure, JS.pure, emit, modifyState]
  · simp only [callsBy, List.filterMap_append] at hcalls_logs hcalls_devs ⊢
    simp [hcalls_logs, hcalls_devs, List.filterMap_cons]
  · simp
  · simp only [List.mem_append, List.mem_cons, not_or]
    refine ⟨⟨⟨by simp, ?_⟩, by simp⟩, ?_, by simp⟩
    · exact ⟨by simp, fun h => by obtain ⟨l, m, h2⟩ := hlogs _ h; cases h2⟩
    · intro h
      rcases hdevs _ h with h2 | ⟨m, h2⟩ <;> cases h2

theorem evaluateConditions_guild_unresolved_witness :
    ∃ s1 evs, evaluateConditions { exampleWorld with cachedGuild := none, fetchedGuild := none }
        connectedState = .ok () s1 ∧ s1.trace = connectedState.trace ++ evs ∧
      s1.conditionsMet = false ∧ s1.checkInProgress = false ∧ s1.voiceConnection = none ∧
      callsBy .evaluateConditions evs = [.getGuild, .isKickLive, .disconnectFromVoice] ∧
      Ev.kickFetch ∈ evs ∧ Ev.membersFetch ∉ evs :=
  evaluateConditions_guild_unresolved { exampleWorld with cachedGuild := none, fetchedGuild := none }
    connectedState rfl rfl rfl

/-! ## C10 -/

theorem verdict_eq_claimedLive_of_wellTyped (status : Nat) (data : Json)
    (h : wellTypedBody data = true) :
    (jsTruthy (livestreamOf data) && jsTruthy (isLiveOf (livestreamOf data)))
      = claimedLive (.response true status (.parsed data)) := by
  cases data with
  | obj fields =>
    simp only [wellTypedBody, claimedLive, livestreamOf, optChain, getProp] at h ⊢
    rcases hl : fields.lookup "livestream" with _ | v
    · simp [nullishOr, jsTruthy]
    · rw [hl] at h
      cases v with
      | obj f2 =>
        simp only [nullishOr, jsTruthy, isLiveOf, getProp, Bool.true_and] at h ⊢
        rcases hf : f2.lookup "is_live" with _ | v2
        · simp [nullishOr, jsTruthy]
        · rw [hf] at h
          cases v2 with
          | bool b => cases b <;> simp [nullishOr, jsTruthy]
          | _ => simp at h
      | null => simp [nullishOr, jsTruthy]
      | _ => simp at h
  | _ => simp [claimedLive, livestreamOf, optChain, getProp, nullishOr, jsTruthy]

/-- C10, as stated, fails: on a success response whose livestream record
carries `is_live: 1`, a flag that is neither absent nor `true`, the probe
answers true; and on the body `livestream: "offline"`, which carries no record
at all, it answers true as well. -/
theorem isKickLive_true_beyond_claim :
    claimedLive (.response true 200 (.parsed (.obj [("livestream", .obj [("is_live", .num 1)])]))) = false ∧
    (isKickLive { exampleWorld with
        kick := .response true 200 (.parsed (.obj [("livestream", .obj [("is_live", .num 1)])])) }
      initialState).value? = some true ∧
    claimedLive (.response true 200 (.parsed (.obj [("livestream", .str "offline")]))) = false ∧
    (isKickLive { exampleWorld with
        kick := .response true 200 (.parsed (.obj [("livestream", .str "offline")])) }
      initialState).value? = some true :=
  ⟨rfl, by decide, rfl, by decide⟩

/-- C10 (liveness interpretation), amended: whatever the outcome of the
request, `isKickLive` returns a boolean and never throws.  It is true exactly
when the status is a success, the body parses, the value of `livestream` is
truthy (so neither absent nor null) and the `is_live` member of that value is
absent, null or truthy.  On every body of the documented shape (`livestream`
absent, null or an object, `is_live` absent or a boolean) this is the condition
of the specification: a livestream record whose flag is absent or true.  It is
false on a non-success status, on abort, on a transport or parse error, when
`livestream` is absent or null, and when the flag is `false`. -/
theorem isKickLive_verdict (w : World) (t : State) :
    ∃ b, (isKickLive w t).value? = some b ∧
      (b = true ↔ ∃ status data, w.kick = .response true status (.parsed data) ∧
        jsTruthy (livestreamOf data) = true ∧ jsTruthy (isLiveOf (livestreamOf data)) = true) ∧
      ((∀ status data, w.kick = .response true status (.parsed data) → wellTypedBody data = true) →
        b = claimedLive w.kick) ∧
      (w.kick = .aborted → b = false) ∧
      (w.kick = .failed → b = false) ∧
      (∀ status body, w.kick = .response false status body → b = false) ∧
      (∀ status, w.kick = .response true status .parseError → b = false) ∧
      (∀ status, w.kick = .response true status .aborted → b = false) ∧
      (∀ status data, w.kick = .response true status (.parsed data) →
        (optChain data "livestream" = none ∨ optChain data "livestream" = some .null) → b = false) ∧
      (∀ status data, w.kick = .response true status (.parsed data) →
        getProp (livestreamOf data) "is_live" = some (.bool false) → b = false) := by
  obtain ⟨b, logs, -, hrun, hiff⟩ := isKickLive_run w
  have hfalse : (¬ ∃ status data, w.kick = .response true status (.parsed data) ∧
      jsTruthy (livestreamOf data) = true ∧ jsTruthy (isLiveOf (livestreamOf data)) = true) →
      b = false := by
    intro h
    cases b
    · rfl
    · exact absurd (hiff.mp rfl) h
  refine ⟨b, by rw [hrun t]; rfl, hiff, ?_, ?_, ?_, ?_, ?_, ?_, ?_, ?_⟩
  · intro hwt
    rcases hk : w.kick with _ | _ | ⟨ok, status, body⟩
    · exact hfalse (by simp [hk])
    · exact hfalse (by simp [hk])
    · cases ok
      · exact hfalse (by simp [hk])
      · rcases body with data | _ | _
        · rw [← verdict_eq_claimedLive_of_wellTyped status data (hwt status data hk)]
          rw [Bool.eq_iff_iff, hiff]
          constructor
          · rintro ⟨_, _, h, h1, h2⟩
            rw [hk] at h
            cases h
            simp [h1, h2]
          · intro h
            simp only [Bool.and_eq_true] at h
            exact ⟨status, data, hk, h.1, h.2⟩
        · exact hfalse (by simp [hk])
        · exact hfalse (by simp [hk])
  · intro hk
    exact hfalse (by simp [hk])
  · intro hk
    exact hfalse (by simp [hk])
  · intro status body hk
    exact hfalse (by simp [hk])
  · intro status hk
    exact hfalse (by simp [hk])
  · intro status hk
    exact hfalse (by simp [hk])
  · intro status data hk hl
    apply hfalse
    rintro ⟨_, _, h, h1, -⟩
    rw [hk] at h
    cases h
    rcases hl with hl | hl <;> simp [livestreamOf, hl, nullishOr, jsTruthy] at h1
  · intro status data hk hl
    apply hfalse
    rintro ⟨_, _, h, -, h2⟩
    rw [hk] at h
    cases h
    simp [isLiveOf, hl, nullishOr, jsTruthy] at h2

theorem isKickLive_verdict_witness :
    ∃ b, (isKickLive exampleWorld initialState).value? = some b ∧ b = claimedLive exampleWorld.kick := by
  obtain ⟨b, h1, -, h2, -⟩ := isKickLive_verdict exampleWorld initialState
  refine ⟨b, h1, h2 ?_⟩
  intro status data h
  cases h
  rfl

/-! ## What the functions called by the evaluator leave alone

Each of them ends, by a return or a throw, in a state that extends the trace
with internal events only and keeps `conditionsMet`. -/

theorem Inner.refl (s : State) : Inner s s := ⟨rfl, [], by simp, by simp⟩

theorem Inner.of_eq {s s1 : State} (hc : s1.conditionsMet = s.conditionsMet)
    (ht : s1.trace = s.trace) : Inner s s1 := ⟨hc, [], by simp [ht], by simp⟩

theorem Inner.trans {a b c : State} (h1 : Inner a b) (h2 : Inner b c) : Inner a c := by
  obtain ⟨hc1, e1, ht1, hi1⟩ := h1
  obtain ⟨hc2, e2, ht2, hi2⟩ := h2
  refine ⟨hc2.trans hc1, e1 ++ e2, by rw [ht2, ht1, List.append_assoc], ?_⟩
  intro e he
  rcases List.mem_append.mp he with h | h
  · exact hi1 e h
  · exact hi2 e h

theorem Keeps.pure {α : Type} (a : α) : Keeps Inner (pure a : JS α) :=
  ⟨fun s => Or.inl ⟨a, s, rfl, Inner.refl s⟩⟩

theorem Keeps.throwJs {α : Type} (e : JsError) : Keeps Inner (throwJs e : JS α) :=
  ⟨fun s => Or.inr ⟨e, s, rfl, Inner.refl s⟩⟩

theorem Keeps.getState : Keeps Inner getState :=
  ⟨fun s => Or.inl ⟨s, s, rfl, Inner.refl s⟩⟩

theorem Keeps.modifyState (f : State → State) (h : ∀ s, Inner s (f s)) :
    Keeps Inner (modifyState f) :=
  ⟨fun s => Or.inl ⟨(), f s, rfl, h s⟩⟩

theorem Keeps.emit (e : Ev) (h : Ev.internal e = true) : Keeps Inner (emit e) :=
  ⟨fun s => Or.inl ⟨(), _, rfl, rfl, [e], rfl, by simpa using h⟩⟩

theorem Keeps.bind {α β : Type} {m : JS α} {k : α → JS β} (hm : Keeps Inner m)
    (hk : ∀ a, Keeps Inner (k a)) : Keeps Inner (m >>= k) := by
  constructor
  intro s
  rcases hm.run s with ⟨a, s1, h1, r1⟩ | ⟨e, s1, h1, r1⟩
  · rcases (hk a).run s1 with ⟨b, s2, h2, r2⟩ | ⟨e, s2, h2, r2⟩
    · exact Or.inl ⟨b, s2, by simp [Bind.bind, JS.bind, h1, h2], r1.trans r2⟩
    · exact Or.inr ⟨e, s2, by simp [Bind.bind, JS.bind, h1, h2], r1.trans r2⟩
  · exact Or.inr ⟨e, s1, by simp [Bind.bind, JS.bind, h1], r1⟩

theorem Keeps.tryCatch {α : Type} {body : JS α} {handler : JsError → JS α}
    (hb : Keeps Inner body) (hh : ∀ e, Keeps Inner (handler e)) :
    Keeps Inner (tryCatch body handler) := by
  constructor
  intro s
  rcases hb.run s with ⟨a, s1, h1, r1⟩ | ⟨e, s1, h1, r1⟩
  · exact Or.inl ⟨a, s1, by simp [AntiTriskelBot.tryCatch, h1], r1⟩
  · rcases (hh e).run s1 with ⟨b, s2, h2, r2⟩ | ⟨e2, s2, h2, r2⟩
    · exact Or.inl ⟨b, s2, by simp [AntiTriskelBot.tryCatch, h1, h2], r1.trans r2⟩
    · exact Or.inr ⟨e2, s2, by simp [AntiTriskelBot.tryCatch, h1, h2], r1.trans r2⟩

theorem Keeps.liftExcept {α : Type} (x : Except JsError α) : Keeps Inner (liftExcept x) := by
  cases x with
  | ok a => exact ⟨fun s => Or.inl ⟨a, s, rfl, Inner.refl s⟩⟩
  | error e => exact ⟨fun s => Or.inr ⟨e, s, rfl, Inner.refl s⟩⟩

theorem disconnectFromVoice_keeps : Keeps Inner disconnectFromVoice := by
  unfold disconnectFromVoice destroy
  repeat' first
    | exact Keeps.pure _
    | exact Keeps.getState
    | exact Keeps.throwJs _
    | exact Keeps.emit _ rfl
    | exact Keeps.modifyState _ (fun s => Inner.of_eq rfl rfl)
    | apply Keeps.bind
    | apply Keeps.tryCatch
    | intro _
    | split

theorem refreshAudioPlaylist_keeps (w : World) : Keeps Inner (refreshAudioPlaylist w) := by
  unfold refreshAudioPlaylist
  repeat' first
    | exact Keeps.pure _
    | exact Keeps.getState
    | exact Keeps.throwJs _
    | exact Keeps.emit _ rfl
    | exact Keeps.modifyState _ (fun s => Inner.of_eq rfl rfl)
    | apply Keeps.bind
    | apply Keeps.tryCatch
    | intro _
    | split

/-! ## One step of `playNextTrack` -/

theorem playNextTrackFuel_empty (w : World) (fuel : Nat) (s : State) (h : s.audioPlaylist = []) :
    playNextTrackFuel w (fuel + 1) s = .ok () s := by
  simp [playNextTrackFuel, bind, JS.bind, getState, pure, JS.pure, h]

theorem playNextTrackFuel_started (w : World) (fuel : Nat) (s : State) (t : String)
    (h : s.audioPlaylist ≠ []) (ht : s.audioPlaylist[s.audioIndex]? = some t)
    (hs : w.trackStarts t = true) :
    playNextTrackFuel w (fuel + 1) s = .ok ()
      { s with audioIndex := (s.audioIndex + 1) % s.audioPlaylist.length
               audioPlayer := .Playing
               trace := s.trace ++ [Ev.createAudioResource (some t), Ev.play t,
                 Ev.console .log "Now playing:"] } := by
  simp [playNextTrackFuel, startTrack, tryCatch, bind, JS.bind, getState, pure, JS.pure, emit,
    modifyState, h, ht, hs]

theorem playNextTrackFuel_wrapped (w : World) (fuel : Nat) (s : State)
    (h : s.audioPlaylist ≠ [])
    (hf : ∀ t, s.audioPlaylist[s.audioIndex]? = some t → w.trackStarts t = false)
    (hw : (s.audioIndex + 1) % s.audioPlaylist.length = 0) :
    playNextTrackFuel w (fuel + 1) s = .ok ()
      { s with audioIndex := 0
               trace := s.trace ++ [Ev.createAudioResource s.audioPlaylist[s.audioIndex]?,
                 Ev.console .error "Failed to play track", Ev.setTimeout 1000] } := by
  rcases ht : s.audioPlaylist[s.audioIndex]? with _ | t
  · simp [playNextTrackFuel, startTrack, tryCatch, throwJs, bind, JS.bind, getState, pure,
      JS.pure, emit, modifyState, h, ht, hw]
  · simp [playNextTrackFuel, startTrack, tryCatch, throwJs, bind, JS.bind, getState, pure,
      JS.pure, emit, modifyState, h, ht, hw, hf t ht]

theorem playNextTrackFuel_retry (w : World) (fuel : Nat) (s : State)
    (h : s.audioPlaylist ≠ [])
    (hf : ∀ t, s.audioPlaylist[s.audioIndex]? = some t → w.trackStarts t = false)
    (hw : (s.audioIndex + 1) % s.audioPlaylist.length ≠ 0)
    (hc : s.conditionsMet = true) (hv : s.voiceConnection.isSome = true) :
    playNextTrackFuel w (fuel + 1) s = playNextTrackFuel w fuel
      { s with audioIndex := (s.audioIndex + 1) % s.audioPlaylist.length
               trace := s.trace ++ [Ev.createAudioResource s.audioPlaylist[s.audioIndex]?,
                 Ev.console .error "Failed to play track",
                 Ev.call .playNextTrack .playNextTrack] } := by
  rcases ht : s.audioPlaylist[s.audioIndex]? with _ | t
  · simp [playNextTrackFuel, startTrack, tryCatch, throwJs, bind, JS.bind, getState, pure,
      JS.pure, emit, modifyState, h, ht, hw, hc, hv]
  · simp [playNextTrackFuel, startTrack, tryCatch, throwJs, bind, JS.bind, getState, pure,
      JS.pure, emit, modifyState, h, ht, hw, hc, hv, hf t ht]

theorem playNextTrackFuel_giveUp (w : World) (fuel : Nat) (s : State)
    (h : s.audioPlaylist ≠ [])
    (hf : ∀ t, s.audioPlaylist[s.audioIndex]? = some t → w.trackStarts t = false)
    (hw : (s.audioIndex + 1) % s.audioPlaylist.length ≠ 0)
    (hc : ¬ (s.conditionsMet = true ∧ s.voiceConnection.isSome = true)) :
    playNextTrackFuel w (fuel + 1) s = .ok ()
      { s with audioIndex := (s.audioIndex + 1) % s.audioPlaylist.length
               trace := s.trace ++ [Ev.createAudioResource s.audioPlaylist[s.audioIndex]?,
                 Ev.console .error "Failed to play track"] } := by
  rcases ht : s.audioPlaylist[s.audioIndex]? with _ | t
  · simp [playNextTrackFuel, startTrack, tryCatch, throwJs, bind, JS.bind, getState, pure,
      JS.pure, emit, modifyState, h, ht, hw, hc]
  · simp [playNextTrackFuel, startTrack, tryCatch, throwJs, bind, JS.bind, getState, pure,
      JS.pure, emit, modifyState, h, ht, hw, hc, hf t ht]

/-! ## Termination of `playNextTrack` -/

theorem depthBound_pos (s : State) : 1 ≤ depthBound s := by
  unfold depthBound
  split <;> omega

theorem depthBound_le_default (s : State) : depthBound s ≤ s.audioPlaylist.length + 1 := by
  unfold depthBound
  split <;> omega

theorem depthBound_next (s : State) (evs : List Ev) (fuel : Nat) (hp : s.audioPlaylist ≠ [])
    (hw : (s.audioIndex + 1) % s.audioPlaylist.length ≠ 0) (hb : depthBound s ≤ fuel + 1) :
    depthBound { s with audioIndex := (s.audioIndex + 1) % s.audioPlaylist.length
                        trace := s.trace ++ evs } ≤ fuel := by
  have hpos : 0 < s.audioPlaylist.length := List.length_pos.mpr hp
  have hlt : (s.audioIndex + 1) % s.audioPlaylist.length < s.audioPlaylist.length :=
    Nat.mod_lt _ hpos
  unfold depthBound at hb ⊢
  simp only [hlt, if_true]
  split at hb
  · rename_i hidx
    have hne : s.audioIndex + 1 ≠ s.audioPlaylist.length := by
      intro h
      rw [h, Nat.mod_self] at hw
      exact hw rfl
    have : (s.audioIndex + 1) % s.audioPlaylist.length = s.audioIndex + 1 :=
      Nat.mod_eq_of_lt (by omega)
    omega
  · omega

theorem Inner.step (s : State) (idx : Nat) (evs : List Ev)
    (h : ∀ e ∈ evs, Ev.internal e = true) :
    Inner s { s with audioIndex := idx, trace := s.trace ++ evs } := ⟨rfl, evs, rfl, h⟩

theorem playNextTrackFuel_ok (w : World) :
    ∀ (fuel : Nat) (s : State), depthBound s ≤ fuel →
      ∃ s1, playNextTrackFuel w fuel s = .ok () s1 ∧ Inner s s1 ∧
        s1.audioPlaylist = s.audioPlaylist := by
  intro fuel
  induction fuel with
  | zero =>
    intro s h
    have := depthBound_pos s
    omega
  | succ fuel ih =>
    intro s hb
    by_cases hp : s.audioPlaylist = []
    · exact ⟨s, playNextTrackFuel_empty w fuel s hp, Inner.refl s, rfl⟩
    by_cases hs : ∃ t, s.audioPlaylist[s.audioIndex]? = some t ∧ w.trackStarts t = true
    · obtain ⟨t, ht, hs⟩ := hs
      refine ⟨_, playNextTrackFuel_started w fuel s t hp ht hs, ⟨rfl, _, rfl, ?_⟩, rfl⟩
      intro e he
      simp only [List.mem_cons, List.mem_singleton, List.not_mem_nil, or_false] at he
      rcases he with rfl | rfl | rfl <;> rfl
    have hf : ∀ t, s.audioPlaylist[s.audioIndex]? = some t → w.trackStarts t = false := by
      intro t ht
      cases h : w.trackStarts t
      · rfl
      · exact absurd ⟨t, ht, h⟩ hs
    by_cases hw : (s.audioIndex + 1) % s.audioPlaylist.length = 0
    · refine ⟨_, playNextTrackFuel_wrapped w fuel s hp hf hw, ⟨rfl, _, rfl, ?_⟩, rfl⟩
      intro e he
      simp only [List.mem_cons, List.mem_singleton, List.not_mem_nil, or_false] at he
      rcases he with rfl | rfl | rfl <;> rfl
    by_cases hc : s.conditionsMet = true ∧ s.voiceConnection.isSome = true
    · rw [playNextTrackFuel_retry w fuel s hp hf hw hc.1 hc.2]
      obtain ⟨s1, h1, hin, hpl⟩ := ih _ (depthBound_next s _ fuel hp hw hb)
      refine ⟨s1, h1, Inner.trans (Inner.step s _ _ ?_) hin, hpl⟩
      intro e he
      simp only [List.mem_cons, List.mem_singleton, List.not_mem_nil, or_false] at he
      rcases he with rfl | rfl | rfl <;> rfl
    · refine ⟨_, playNextTrackFuel_giveUp w fuel s hp hf hw hc, ⟨rfl, _, rfl, ?_⟩, rfl⟩
      intro e he
      simp only [List.mem_cons, List.mem_singleton, List.not_mem_nil, or_false] at he
      rcases he with rfl | rfl <;> rfl

theorem playNextTrackFuel_fuel_irrelevant (w : World) :
    ∀ (n m : Nat) (s : State), depthBound s ≤ n → depthBound s ≤ m →
      playNextTrackFuel w n s = playNextTrackFuel w m s := by
  intro n
  induction n with
  | zero =>
    intro m s h
    have := depthBound_pos s
    omega
  | succ n ih =>
    intro m s hn hm
    cases m with
    | zero =>
      have := depthBound_pos s
      omega
    | succ m =>
      by_cases hp : s.audioPlaylist = []
      · rw [playNextTrackFuel_empty w n s hp, playNextTrackFuel_empty w m s hp]
      by_cases hs : ∃ t, s.audioPlaylist[s.audioIndex]? = some t ∧ w.trackStarts t = true
      · obtain ⟨t, ht, hs⟩ := hs
        rw [playNextTrackFuel_started w n s t hp ht hs, playNextTrackFuel_started w m s t hp ht hs]
      have hf : ∀ t, s.audioPlaylist[s.audioIndex]? = some t → w.trackStarts t = false := by
        intro t ht
        cases h : w.trackStarts t
        · rfl
        · exact absurd ⟨t, ht, h⟩ hs
      by_cases hw : (s.audioIndex + 1) % s.audioPlaylist.length = 0
      · rw [playNextTrackFuel_wrapped w n s hp hf hw, playNextTrackFuel_wrapped w m s hp hf hw]
      by_cases hc : s.conditionsMet = true ∧ s.voiceConnection.isSome = true
      · rw [playNextTrackFuel_retry w n s hp hf hw hc.1 hc.2,
          playNextTrackFuel_retry w m s hp hf hw hc.1 hc.2]
        exact ih m _ (depthBound_next s _ n hp hw hn) (depthBound_next s _ m hp hw hm)
      · rw [playNextTrackFuel_giveUp w n s hp hf hw hc, playNextTrackFuel_giveUp w m s hp hf hw hc]

theorem playNextTrack_keeps (w : World) : Keeps Inner (playNextTrack w) := by
  constructor
  intro s
  obtain ⟨s1, h1, hin, -⟩ := playNextTrackFuel_ok w (s.audioPlaylist.length + 1) s
    (depthBound_le_default s)
  exact Or.inl ⟨(), s1, h1, hin⟩

theorem connectToVoice_keeps (w : World) (guild : Guild) : Keeps Inner (connectToVoice w guild) := by
  unfold connectToVoice
  repeat' first
    | exact Keeps.pure _
    | exact Keeps.getState
    | exact Keeps.throwJs _
    | exact Keeps.liftExcept _
    | exact playNextTrack_keeps w
    | exact refreshAudioPlaylist_keeps w
    | exact disconnectFromVoice_keeps
    | exact Keeps.emit _ rfl
    | exact Keeps.modifyState _ (fun s => Inner.of_eq rfl rfl)
    | apply Keeps.bind
    | apply Keeps.tryCatch
    | intro _
    | split

/-! ## C1 -/

theorem callsBy_append (f : Fn) (a b : List Ev) : callsBy f (a ++ b) = callsBy f a ++ callsBy f b := by
  simp [callsBy, List.filterMap_append]

theorem callsBy_internal (evs : List Ev) (h : ∀ e ∈ evs, Ev.internal e = true) :
    callsBy .evaluateConditions evs = [] := by
  apply List.filterMap_eq_nil_iff.mpr
  intro e he
  have := h e he
  cases e with
  | call caller callee => cases caller <;> cases callee <;> simp_all [Ev.internal]
  | _ => rfl

theorem caller_of_internal (evs : List Ev) (h : ∀ e ∈ evs, Ev.internal e = true) (f g : Fn)
    (hm : Ev.call f g ∈ evs) : f = .connectToVoice ∨ (f = .playNextTrack ∧ g = .playNextTrack) := by
  have := h _ hm
  cases f <;> cases g <;> simp_all [Ev.internal]

theorem getGuild_run (w : World) :
    ∃ g evs, (∀ e ∈ evs, Ev.internal e = true) ∧ (∀ f h, Ev.call f h ∉ evs) ∧
      ∀ t : State, getGuild w t = .ok g { t with trace := t.trace ++ evs } := by
  rcases hc : w.cachedGuild with _ | g
  · rcases hf : w.fetchedGuild with _ | g
    · refine ⟨none, [.guildsFetch, .console .error "Unable to fetch target guild:"],
        by simp [Ev.internal], by simp, fun t => ?_⟩
      simp [getGuild, hc, hf, tryCatch, throwJs, bind, JS.bind, pure, JS.pure, emit, modifyState]
    · refine ⟨some g, [.guildsFetch], by simp [Ev.internal], by simp, fun t => ?_⟩
      simp [getGuild, hc, hf, tryCatch, throwJs, bind, JS.bind, pure, JS.pure, emit, modifyState]
  · refine ⟨some g, [], by simp, by simp, fun t => ?_⟩
    simp [getGuild, hc, pure, JS.pure]

theorem isTargetUserInVoice_run (w : World) (guild : Guild) :
    ∃ b evs, (∀ e ∈ evs, Ev.internal e = true) ∧ (∀ f h, Ev.call f h ∉ evs) ∧
      ∀ t : State, isTargetUserInVoice w guild t = .ok b { t with trace := t.trace ++ evs } := by
  rcases hm : guild.fetchedMember with _ | c
  · refine ⟨false, [.membersFetch, .console .error "Unable to fetch target member:"],
      by simp [Ev.internal], by simp, fun t => ?_⟩
    simp [isTargetUserInVoice, hm, tryCatch, throwJs, bind, JS.bind, pure, JS.pure, emit, modifyState]
  · refine ⟨decide (c = some w.config.TARGET_VOICE_CHANNEL_ID), [.membersFetch],
      by simp [Ev.internal], by simp, fun t => ?_⟩
    simp [isTargetUserInVoice, hm, tryCatch, throwJs, bind, JS.bind, pure, JS.pure, emit, modifyState]

/-- The events of a cycle up to the decision: the three probes. -/
theorem evaluateConditionsTry_probes (w : World) (guild : Guild) (live userInVoice : Bool)
    (hguild : ∀ t, (getGuild w t).value? = some (some guild))
    (hlive : ∀ t, (isKickLive w t).value? = some live)
    (huser : ∀ t, (isTargetUserInVoice w guild t).value? = some userInVoice) :
    ∃ pre, callsBy .evaluateConditions pre = [.getGuild, .isKickLive, .isTargetUserInVoice] ∧
      (∀ f, Ev.call f .disconnectFromVoice ∉ pre) ∧
      ∀ t : State, evaluateConditionsTry w t =
        evaluateConditionsAct w guild (live && userInVoice) { t with trace := t.trace ++ pre } := by
  obtain ⟨g, gevs, hgi, hgc, hg⟩ := getGuild_run w
  obtain ⟨b, logs, hlogs, hk, -⟩ := isKickLive_run w
  obtain ⟨u, uevs, hui, huc, hu⟩ := isTargetUserInVoice_run w guild
  have e1 : g = some guild := by
    have := hguild initialState
    rw [hg] at this
    exact Option.some.inj this
  have e2 : b = live := by
    have := hlive initialState
    rw [hk] at this
    exact Option.some.inj this
  have e3 : u = userInVoice := by
    have := huser initialState
    rw [hu] at this
    exact Option.some.inj this
  subst e1 e2 e3
  have hlc : callsBy .evaluateConditions logs = [] :=
    callsBy_internal logs (fun e he => by obtain ⟨l, m, rfl⟩ := hlogs e he; rfl)
  refine ⟨Ev.call .evaluateConditions .getGuild :: (gevs ++ Ev.call .evaluateConditions .isKickLive ::
      Ev.kickFetch :: (logs ++ Ev.call .evaluateConditions .isTargetUserInVoice :: uevs)), ?_, ?_, ?_⟩
  · have a1 := callsBy_internal gevs hgi
    have a3 := callsBy_internal uevs hui
    simp only [callsBy, List.filterMap_append, List.filterMap_cons] at a1 a3 hlc ⊢
    simp [a1, a3, hlc]
  · intro f hm
    simp only [List.mem_cons, List.mem_append] at hm
    rcases hm with h | h | h | h | h | h | h
    · cases h
    · exact hgc _ _ h
    · cases h
    · cases h
    · obtain ⟨l, m, h2⟩ := hlogs _ h
      cases h2
    · cases h
    · exact huc _ _ h
  · intro t
    simp [evaluateConditionsTry, hg, hk, hu, bind, JS.bind, emit, modifyState]

/-- The functions the evaluator calls after the probes, as the source decides them. -/
theorem evaluateConditionsAct_run (w : World) (guild : Guild) (shouldConnect : Bool) (t : State) :
    ∃ t1 evs, (evaluateConditionsAct w guild shouldConnect t = .ok () t1 ∨
        ∃ e, evaluateConditionsAct w guild shouldConnect t = .threw e t1) ∧
      t1.trace = t.trace ++ evs ∧ t1.conditionsMet = shouldConnect ∧
      callsBy .evaluateConditions evs =
        (if shouldConnect = true then
          if t.voiceConnection.all (fun c => decide (c.status = .Destroyed)) = true then
            [.connectToVoice]
          else if (decide (t.audioPlayer = .Idle) && decide (t.audioPlaylist.length > 0)) = true then
            [.playNextTrack]
          else []
        else [.disconnectFromVoice]) ∧
      (shouldConnect = false → t1.voiceConnection = none) ∧
      (∀ f, Ev.call f .disconnectFromVoice ∈ evs →
        if shouldConnect = true then f = .connectToVoice else f = .evaluateConditions) := by
  rcases t with ⟨vc, cm, cip, pl, idx, ap, tr⟩
  cases shouldConnect with
  | false =>
    obtain ⟨devs, hdevs, -, hd⟩ := disconnectFromVoice_run vc
    have hdc : callsBy .evaluateConditions devs = [] :=
      callsBy_internal devs (fun e he => by rcases hdevs e he with rfl | ⟨m, rfl⟩ <;> rfl)
    have hdn : ∀ f, Ev.call f .disconnectFromVoice ∉ devs := by
      intro f hm
      rcases hdevs _ hm with h | ⟨m, h⟩ <;> cases h
    cases cm with
    | false =>
      refine ⟨⟨none, false, cip, pl, 0, .Idle,
          tr ++ Ev.call .evaluateConditions .disconnectFromVoice :: (devs ++ [Ev.stop])⟩,
        Ev.call .evaluateConditions .disconnectFromVoice :: (devs ++ [Ev.stop]),
        Or.inl ?_, ?_, ?_, ?_, ?_, ?_⟩
      · simp [evaluateConditionsAct, bind, JS.bind, getState, pure, JS.pure, emit, modifyState, hd]
      · simp
      · rfl
      · simp only [callsBy, List.filterMap_append, List.filterMap_cons] at hdc ⊢
        simp [hdc]
      · intro _
        rfl
      · intro f hm
        simp only [List.mem_cons, List.mem_append, List.not_mem_nil, or_false] at hm
        rcases hm with h | h | h
        · cases h
          simp
        · exact absurd h (hdn f)
        · cases h
    | true =>
      refine ⟨⟨none, false, cip, pl, 0, .Idle,
          tr ++ Ev.console .log "Conditions not met. Leaving voice channel if connected." ::
            Ev.call .evaluateConditions .disconnectFromVoice :: (devs ++ [Ev.stop])⟩,
        Ev.console .log "Conditions not met. Leaving voice channel if connected." ::
        Ev.call .evaluateConditions .disconnectFromVoice :: (devs ++ [Ev.stop]),
        Or.inl ?_, ?_, ?_, ?_, ?_, ?_⟩
      · simp [evaluateConditionsAct, bind, JS.bind, getState, pure, JS.pure, emit, modifyState, hd]
      · simp
      · rfl
      · simp only [callsBy, List.filterMap_append, List.filterMap_cons] at hdc ⊢
        simp [hdc]
      · intro _
        rfl
      · intro f hm
        simp only [List.mem_cons, List.mem_append, List.not_mem_nil, or_false] at hm
        rcases hm with h | h | h | h
        · cases h
        · cases h
          simp
        · exact absurd h (hdn f)
        · cases h
  | true =>
    by_cases hconn : vc.all (fun c => decide (c.status = .Destroyed)) = true
    · have hrun : evaluateConditionsAct w guild true ⟨vc, cm, cip, pl, idx, ap, tr⟩ =
          connectToVoice w guild
            ⟨vc, true, cip, pl, idx, ap, tr ++ [Ev.call .evaluateConditions .connectToVoice]⟩ := by
        simp [evaluateConditionsAct, bind, JS.bind, getState, emit, modifyState, hconn]
      have hfin : ∀ t1 : State, Inner
          ⟨vc, true, cip, pl, idx, ap, tr ++ [Ev.call .evaluateConditions .connectToVoice]⟩ t1 →
          ∃ evs, t1.trace = tr ++ evs ∧ t1.conditionsMet = true ∧
            callsBy .evaluateConditions evs = [.connectToVoice] ∧
            (∀ f, Ev.call f .disconnectFromVoice ∈ evs → f = .connectToVoice) := by
        rintro t1 ⟨hcm, evs, htr, hint⟩
        refine ⟨Ev.call .evaluateConditions .connectToVoice :: evs, by simp [htr], hcm, ?_, ?_⟩
        · have := callsBy_internal evs hint
          simp only [callsBy, List.filterMap_cons] at this ⊢
          simp [this]
        · intro f hm
          simp only [List.mem_cons] at hm
          rcases hm with h | h
          · cases h
          · rcases caller_of_internal evs hint _ _ h with h2 | ⟨-, h2⟩
            · exact h2
            · cases h2
      rcases (connectToVoice_keeps w guild).run
          ⟨vc, true, cip, pl, idx, ap, tr ++ [Ev.call .evaluateConditions .connectToVoice]⟩
        with ⟨a, t1, h1, r1⟩ | ⟨e, t1, h1, r1⟩
      · obtain ⟨evs, h2, h3, h4, h5⟩ := hfin t1 r1
        exact ⟨t1, evs, Or.inl (by rw [hrun, h1]), h2, h3, (by simp [hconn, h4]),
          (by intro h; cases h), (by simpa using h5)⟩
      · obtain ⟨evs, h2, h3, h4, h5⟩ := hfin t1 r1
        exact ⟨t1, evs, Or.inr ⟨e, by rw [hrun, h1]⟩, h2, h3, (by simp [hconn, h4]),
          (by intro h; cases h), (by simpa using h5)⟩
    · by_cases hplay : (decide (ap = .Idle) && decide (pl.length > 0)) = true
      · have hrun : evaluateConditionsAct w guild true ⟨vc, cm, cip, pl, idx, ap, tr⟩ =
            playNextTrack w
              ⟨vc, true, cip, pl, idx, ap, tr ++ [Ev.call .evaluateConditions .playNextTrack]⟩ := by
          simp only [Bool.and_eq_true, decide_eq_true_eq] at hplay
          simp [evaluateConditionsAct, bind, JS.bind, getState, emit, modifyState, hconn, hplay]
        rcases (playNextTrack_keeps w).run
            ⟨vc, true, cip, pl, idx, ap, tr ++ [Ev.call .evaluateConditions .playNextTrack]⟩
          with ⟨a, t1, h1, ⟨hcm, evs, htr, hint⟩⟩ | ⟨e, t1, h1, ⟨hcm, evs, htr, hint⟩⟩
        · refine ⟨t1, Ev.call .evaluateConditions .playNextTrack :: evs, Or.inl (by rw [hrun, h1]),
            (by simp [htr]), hcm, ?_, (by intro h; cases h), ?_⟩
          · have := callsBy_internal evs hint
            simp only [callsBy, List.filterMap_cons] at this ⊢
            simp [this, hconn, hplay]
          · intro f hm
            simp only [List.mem_cons] at hm
            rcases hm with h | h
            · cases h
            · rcases caller_of_internal evs hint _ _ h with h2 | ⟨-, h2⟩
              · simpa using h2
              · cases h2
        · refine ⟨t1, Ev.call .evaluateConditions .playNextTrack :: evs,
            Or.inr ⟨e, by rw [hrun, h1]⟩, (by simp [htr]), hcm, ?_, (by intro h; cases h), ?_⟩
          · have := callsBy_internal evs hint
            simp only [callsBy, List.filterMap_cons] at this ⊢
            simp [this, hconn, hplay]
          · intro f hm
            simp only [List.mem_cons] at hm
            rcases hm with h | h
            · cases h
            · rcases caller_of_internal evs hint _ _ h with h2 | ⟨-, h2⟩
              · simpa using h2
              · cases h2
      · refine ⟨⟨vc, true, cip, pl, idx, ap, tr⟩, [], Or.inl ?_, (by simp), rfl, ?_,
          (by intro h; cases h), (by simp)⟩
        · have hplay2 := hplay
          simp only [Bool.and_eq_true, decide_eq_true_eq] at hplay2
          simp [evaluateConditionsAct, bind, JS.bind, getState, pure, JS.pure, emit, modifyState,
            hconn, hplay2]
        · simp [hconn, hplay, callsBy]

/-- C1 (decision correctness): in a cycle started with the lock free, in
which the guild resolves and the two probes answer `live` and `userInVoice`,
`evaluateConditions` returns with the lock released and `conditionsMet` equal
to `live AND userInVoice`.  When both are true the evaluator itself never
calls `disconnectFromVoice` (within the cycle only `connectToVoice` may, on a
failed establishment); after the three probe calls it calls `connectToVoice`
if no connection is held or the held one is Destroyed, otherwise
`playNextTrack` if the player is Idle and the playlist is not empty, otherwise
nothing.  In the three other combinations it calls `disconnectFromVoice` after
the probes and nothing else, so neither `connectToVoice` nor `playNextTrack`,
and no connection is held afterwards. -/
theorem evaluateConditions_truth_table (w : World) (s : State) (guild : Guild)
    (live userInVoice : Bool) (hlock : s.checkInProgress = false)
    (hguild : ∀ t, (getGuild w t).value? = some (some guild))
    (hlive : ∀ t, (isKickLive w t).value? = some live)
    (huser : ∀ t, (isTargetUserInVoice w guild t).value? = some userInVoice) :
    ∃ s1 evs, evaluateConditions w s = .ok () s1 ∧ s1.trace = s.trace ++ evs ∧
      s1.checkInProgress = false ∧ s1.conditionsMet = (live && userInVoice) ∧
      (live = true → userInVoice = true →
        Fn.disconnectFromVoice ∉ callsBy .evaluateConditions evs ∧
        (∀ f, Ev.call f .disconnectFromVoice ∈ evs → f = .connectToVoice) ∧
        ((s.voiceConnection = none ∨ ∃ c, s.voiceConnection = some c ∧ c.status = .Destroyed) →
          callsBy .evaluateConditions evs =
            [.getGuild, .isKickLive, .isTargetUserInVoice, .connectToVoice]) ∧
        (∀ c, s.voiceConnection = some c → c.status ≠ .Destroyed →
          ((s.audioPlayer = .Idle ∧ s.audioPlaylist ≠ []) →
            callsBy .evaluateConditions evs =
              [.getGuild, .isKickLive, .isTargetUserInVoice, .playNextTrack]) ∧
          (¬ (s.audioPlayer = .Idle ∧ s.audioPlaylist ≠ []) →
            callsBy .evaluateConditions evs = [.getGuild, .isKickLive, .isTargetUserInVoice]))) ∧
      ((live = false ∨ userInVoice = false) →
        s1.voiceConnection = none ∧
        callsBy .evaluateConditions evs =
          [.getGuild, .isKickLive, .isTargetUserInVoice, .disconnectFromVoice]) := by
  obtain ⟨pre, hpre, hpren, htry⟩ := evaluateConditionsTry_probes w guild live userInVoice hguild hlive huser
  obtain ⟨t1, aevs, hact, htr, hcm, hcalls, hvc, hdis⟩ := evaluateConditionsAct_run w guild
    (live && userInVoice) { s with checkInProgress := true, trace := s.trace ++ pre }
  -- the end of the cycle: the catch of line 285 and the finally of line 287
  have hend : ∃ s1 tail, evaluateConditions w s = .ok () s1 ∧ s1.trace = t1.trace ++ tail ∧
      (∀ e ∈ tail, ∃ m, e = Ev.console .error m) ∧ s1.checkInProgress = false ∧
      s1.conditionsMet = t1.conditionsMet ∧ s1.voiceConnection = t1.voiceConnection := by
    rcases hact with h | ⟨e, h⟩
    · refine ⟨{ t1 with checkInProgress := false }, [], ?_, by simp, by simp, rfl, rfl, rfl⟩
      simp [evaluateConditions, hlock, htry, h, tryFinally, tryCatch, bind, JS.bind, getState,
        modifyState]
    · refine ⟨{ t1 with checkInProgress := false
                        trace := t1.trace ++ [Ev.console .error "Failed to evaluate conditions:"] },
        [Ev.console .error "Failed to evaluate conditions:"], ?_, rfl, by simp, rfl, rfl, rfl⟩
      simp [evaluateConditions, hlock, htry, h, tryFinally, tryCatch, bind, JS.bind, getState,
        modifyState, emit]
  obtain ⟨s1, tail, hrun, htr1, htail, hcip, hcm1, hvc1⟩ := hend
  have htailc : callsBy .evaluateConditions tail = [] :=
    callsBy_internal tail (fun e he => by obtain ⟨m, rfl⟩ := htail e he; rfl)
  have hall : callsBy .evaluateConditions (pre ++ aevs ++ tail) =
      [.getGuild, .isKickLive, .isTargetUserInVoice] ++ callsBy .evaluateConditions aevs := by
    rw [callsBy_append, callsBy_append, hpre, htailc, List.append_nil]
  refine ⟨s1, pre ++ aevs ++ tail, hrun, ?_, hcip, by rw [hcm1, hcm], ?_, ?_⟩
  · rw [htr1, htr]
    simp
  · intro hl hu
    subst hl hu
    simp only [Bool.and_self, if_true] at hcalls hdis
    refine ⟨?_, ?_, ?_, ?_⟩
    · rw [hall, hcalls]
      split
      · decide
      · split <;> decide
    · intro f hm
      simp only [List.mem_append] at hm
      rcases hm with (h | h) | h
      · exact absurd h (hpren f)
      · exact hdis f h
      · obtain ⟨m, h2⟩ := htail _ h
        cases h2
    · intro hc
      have : s.voiceConnection.all (fun c => decide (c.status = .Destroyed)) = true := by
        rcases hc with h | ⟨c, h, hd⟩
        · simp [h]
        · simp [h, hd]
      rw [hall, hcalls]
      simp [this]
    · intro c hc hd
      have h1 : ¬ s.voiceConnection.all (fun c => decide (c.status = .Destroyed)) = true := by
        simp [hc, hd]
      constructor
      · rintro ⟨hi, hp⟩
        have h2 : (decide (s.audioPlayer = .Idle) && decide (s.audioPlaylist.length > 0)) = true := by
          simp [hi, List.length_pos, hp]
        rw [hall, hcalls]
        simp only [h1, h2, if_true, if_false]
        rfl
      · intro hn
        have h2 : ¬ (decide (s.audioPlayer = .Idle) && decide (s.audioPlaylist.length > 0)) = true := by
          simp only [Bool.and_eq_true, decide_eq_true_eq, List.length_pos]
          exact hn
        rw [hall, hcalls]
        simp only [h1, h2, if_false]
        rfl
  · intro h
    have hsc : (live && userInVoice) = false := by
      rcases h with h | h <;> simp [h]
    rw [hsc] at hcalls hvc
    refine ⟨by rw [hvc1]; exact hvc rfl, ?_⟩
    rw [hall, hcalls]
    rfl

theorem evaluateConditions_truth_table_witness :
    (∃ s1 evs, evaluateConditions exampleWorld initialState = .ok () s1 ∧
      s1.trace = initialState.trace ++ evs ∧ s1.conditionsMet = true ∧
      callsBy .evaluateConditions evs =
        [.getGuild, .isKickLive, .isTargetUserInVoice, .connectToVoice]) ∧
    (∃ s1 evs, evaluateConditions { exampleWorld with kick := .failed } connectedState = .ok () s1 ∧
      s1.trace = connectedState.trace ++ evs ∧ s1.conditionsMet = false ∧
      callsBy .evaluateConditions evs =
        [.getGuild, .isKickLive, .isTargetUserInVoice, .disconnectFromVoice]) ∧
    (∃ s1 evs, evaluateConditions
        { exampleWorld with cachedGuild := some { exampleGuild with fetchedMember := some none } }
        connectedState = .ok () s1 ∧
      s1.trace = connectedState.trace ++ evs ∧ s1.conditionsMet = false ∧
      callsBy .evaluateConditions evs =
        [.getGuild, .isKickLive, .isTargetUserInVoice, .disconnectFromVoice]) ∧
    (∃ s1 evs, evaluateConditions
        { exampleWorld with
            kick := .response false 503 .parseError
            cachedGuild := some { exampleGuild with fetchedMember := none } }
        connectedState = .ok () s1 ∧
      s1.trace = connectedState.trace ++ evs ∧ s1.conditionsMet = false ∧
      callsBy .evaluateConditions evs =
        [.getGuild, .isKickLive, .isTargetUserInVoice, .disconnectFromVoice]) := by
  refine ⟨?_, ?_, ?_, ?_⟩
  · obtain ⟨s1, evs, h1, h2, -, h4, h5, -⟩ :=
      evaluateConditions_truth_table exampleWorld initialState exampleGuild true true rfl
        (fun _ => rfl) (fun _ => rfl) (fun _ => rfl)
    exact ⟨s1, evs, h1, h2, h4, (h5 rfl rfl).2.2.1 (Or.inl rfl)⟩
  · obtain ⟨s1, evs, h1, h2, -, h4, -, h6⟩ :=
      evaluateConditions_truth_table { exampleWorld with kick := .failed } connectedState
        exampleGuild false true rfl (fun _ => rfl) (fun _ => rfl) (fun _ => rfl)
    exact ⟨s1, evs, h1, h2, h4, (h6 (Or.inl rfl)).2⟩
  · obtain ⟨s1, evs, h1, h2, -, h4, -, h6⟩ :=
      evaluateConditions_truth_table
        { exampleWorld with cachedGuild := some { exampleGuild with fetchedMember := some none } }
        connectedState { exampleGuild with fetchedMember := some none } true false rfl
        (fun _ => rfl) (fun _ => rfl) (fun _ => rfl)
    exact ⟨s1, evs, h1, h2, h4, (h6 (Or.inr rfl)).2⟩
  · obtain ⟨s1, evs, h1, h2, -, h4, -, h6⟩ :=
      evaluateConditions_truth_table
        { exampleWorld with
            kick := .response false 503 .parseError
            cachedGuild := some { exampleGuild with fetchedMember := none } }
        connectedState { exampleGuild with fetchedMember := none } false false rfl
        (fun _ => rfl) (fun _ => rfl) (fun _ => rfl)
    exact ⟨s1, evs, h1, h2, h4, (h6 (Or.inl rfl)).2⟩

/-! ## C5 -/

theorem refreshAudioPlaylist_empty (w : World)
    (hdir : ∀ entries, w.readdirSync = some entries → entries.filter eligible = []) :
    ∃ logs, (∀ e ∈ logs, ∃ l m, e = Ev.console l m) ∧
      ∀ t : State, refreshAudioPlaylist w t = .ok ()
        { t with audioPlaylist := [], audioIndex := 0, trace := t.trace ++ Ev.readdir :: logs } := by
  rcases hr : w.readdirSync with _ | entries
  · refine ⟨[.console .error "Failed to read audio directory:"], by simp, fun t => ?_⟩
    simp [refreshAudioPlaylist, hr, tryCatch, throwJs, bind, JS.bind, getState, pure, JS.pure,
      emit, modifyState]
  · refine ⟨[.console .warn "No MP3 files found in audios/. The bot will not play anything."],
      by simp, fun t => ?_⟩
    simp [refreshAudioPlaylist, hr, sortedNames, hdir entries hr, tryCatch, throwJs, bind, JS.bind,
      getState, pure, JS.pure, emit, modifyState]

/-- C5, as stated, fails: called while a Destroyed handle is held (the case
in which the evaluator calls it with a handle), with an empty directory,
`connectToVoice` returns with that handle still held. -/
theorem connectToVoice_leaves_destroyed_handle :
    ({ exampleWorld with readdirSync := some [] } : World).readdirSync = some [] ∧
    ∃ s1, connectToVoice { exampleWorld with readdirSync := some [] } exampleGuild
        { initialState with voiceConnection := some ⟨.Destroyed, true⟩, conditionsMet := true }
        = .ok () s1 ∧
      s1.voiceConnection = some ⟨.Destroyed, true⟩ ∧ s1.audioPlaylist = [] :=
  ⟨rfl, _, rfl, rfl, rfl⟩

/-- C5 (empty playlist blocks joining), amended: in every call of
`connectToVoice` made while the directory holds no eligible track (no regular
file whose lower-cased name ends in `.mp3`, or the read throws), the call
returns normally, `joinVoiceChannel` is never called and the connection handle
is left as it was: none is held afterwards when none was held before, and a
handle held before (a Destroyed one, when the evaluator is the caller) is
still held.  Whenever the call reaches the scan, the playlist is empty and the
cursor is 0 afterwards. -/
theorem connectToVoice_empty_playlist (w : World) (guild : Guild) (s : State)
    (hdir : ∀ entries, w.readdirSync = some entries → entries.filter eligible = []) :
    ∃ s1 evs, connectToVoice w guild s = .ok () s1 ∧ s1.trace = s.trace ++ evs ∧
      Ev.joinVoiceChannel ∉ evs ∧ s1.voiceConnection = s.voiceConnection ∧
      (s.voiceConnection = none → s1.voiceConnection = none) ∧
      (Ev.readdir ∈ evs → s1.audioPlaylist = [] ∧ s1.audioIndex = 0) := by
  obtain ⟨logs, hlogs, hrefresh⟩ := refreshAudioPlaylist_empty w hdir
  have hlogs2 : Ev.joinVoiceChannel ∉ logs := fun h => by
    obtain ⟨l, m, h2⟩ := hlogs _ h
    cases h2
  rcases s with ⟨vc, cm, cip, pl, idx, ap, tr⟩
  -- the channel of lines 173 to 178
  rcases hcache : guild.cachedChannel with _ | channel
  · rcases hfetch : guild.fetchedChannel with _ | _ | channel
    · exact ⟨⟨vc, cm, cip, pl, idx, ap, tr ++ [.channelsFetch, .console .error "Unable to fetch target voice channel:",
        .console .error "Target voice channel not found."]⟩, [.channelsFetch, .console .error "Unable to fetch target voice channel:",
        .console .error "Target voice channel not found."],
        (by simp [connectToVoice, hcache, hfetch, bind, JS.bind, pure, JS.pure, emit, modifyState]),
        rfl, (by simp), rfl, id, (by simp)⟩
    · exact ⟨⟨vc, cm, cip, pl, idx, ap, tr ++ [.channelsFetch, .console .error "Target voice channel not found."]⟩, [.channelsFetch, .console .error "Target voice channel not found."],
        (by simp [connectToVoice, hcache, hfetch, bind, JS.bind, pure, JS.pure, emit, modifyState]),
        rfl, (by simp), rfl, id, (by simp)⟩
    · by_cases hty : channel.type ≠ "GUILD_VOICE" ∧ channel.type ≠ "GUILD_STAGE_VOICE"
      · exact ⟨⟨vc, cm, cip, pl, idx, ap, tr ++ [.channelsFetch, .console .error "Target channel is not a voice-capable channel."]⟩, [.channelsFetch, .console .error "Target channel is not a voice-capable channel."],
          (by simp [connectToVoice, hcache, hfetch, hty, bind, JS.bind, pure, JS.pure, emit,
            modifyState]),
          rfl, (by simp), rfl, id, (by simp)⟩
      · refine ⟨⟨vc, cm, cip, [], 0, ap, tr ++ (Ev.channelsFetch ::
            Ev.call .connectToVoice .refreshAudioPlaylist :: Ev.readdir :: (logs ++
            [Ev.console .warn "Skipping voice connection because the playlist is empty."]))⟩,
          _, ?_, rfl, ?_, rfl, id, fun _ => ⟨rfl, rfl⟩⟩
        · simp [connectToVoice, hcache, hfetch, hty, hrefresh, bind, JS.bind, getState, pure,
            JS.pure, emit, modifyState]
        · simp [hlogs2]
  · by_cases hty : channel.type ≠ "GUILD_VOICE" ∧ channel.type ≠ "GUILD_STAGE_VOICE"
    · exact ⟨⟨vc, cm, cip, pl, idx, ap, tr ++ [.console .error "Target channel is not a voice-capable channel."]⟩, [.console .error "Target channel is not a voice-capable channel."],
        (by simp [connectToVoice, hcache, hty, bind, JS.bind, pure, JS.pure, emit, modifyState]),
        rfl, (by simp), rfl, id, (by simp)⟩
    · refine ⟨⟨vc, cm, cip, [], 0, ap, tr ++ (
          Ev.call .connectToVoice .refreshAudioPlaylist :: Ev.readdir :: (logs ++
          [Ev.console .warn "Skipping voice connection because the playlist is empty."]))⟩,
        _, ?_, rfl, ?_, rfl, id, fun _ => ⟨rfl, rfl⟩⟩
      · simp [connectToVoice, hcache, hty, hrefresh, bind, JS.bind, getState, pure,
          JS.pure, emit, modifyState]
      · simp [hlogs2]

theorem connectToVoice_empty_playlist_witness :
    ∃ s1 evs, connectToVoice { exampleWorld with readdirSync := some [⟨"notes.txt", true⟩, ⟨"x.mp3", false⟩] }
        exampleGuild initialState = .ok () s1 ∧ s1.trace = initialState.trace ++ evs ∧
      Ev.joinVoiceChannel ∉ evs ∧ s1.voiceConnection = none := by
  obtain ⟨s1, evs, h1, h2, h3, -, h5, -⟩ := connectToVoice_empty_playlist
    { exampleWorld with readdirSync := some [⟨"notes.txt", true⟩, ⟨"x.mp3", false⟩] }
    exampleGuild initialState (by
      intro entries h
      cases h
      decide)
  exact ⟨s1, evs, h1, h2, h3, h5 rfl⟩

/-! ## C2 -/

theorem playNextTrack_started (w : World) (s : State) (hne : s.audioPlaylist ≠ [])
    (hidx : s.audioIndex < s.audioPlaylist.length)
    (hstart : ∀ t ∈ s.audioPlaylist, w.trackStarts t = true) :
    ∃ t, s.audioPlaylist[s.audioIndex]? = some t ∧
      playNextTrack w s = .ok ()
        { s with audioIndex := (s.audioIndex + 1) % s.audioPlaylist.length
                 audioPlayer := .Playing
                 trace := s.trace ++ [Ev.createAudioResource (some t), Ev.play t,
                   Ev.console .log "Now playing:"] } := by
  refine ⟨s.audioPlaylist[s.audioIndex], List.getElem?_eq_getElem hidx, ?_⟩
  exact playNextTrackFuel_started w _ s _ hne (List.getElem?_eq_getElem hidx)
    (hstart _ (List.getElem_mem _))

theorem playNextTrackTimes_ok (w : World) (s : State) (hne : s.audioPlaylist ≠ [])
    (hidx : s.audioIndex = 0) (hstart : ∀ t ∈ s.audioPlaylist, w.trackStarts t = true) :
    ∀ k, ∃ s1, playNextTrackTimes w k s = .ok () s1 ∧
      s1.audioIndex = k % s.audioPlaylist.length ∧ s1.audioPlaylist = s.audioPlaylist := by
  have hpos : 0 < s.audioPlaylist.length := List.length_pos.mpr hne
  intro k
  induction k with
  | zero => exact ⟨s, rfl, by simp [hidx], rfl⟩
  | succ k ih =>
    obtain ⟨s1, h1, h2, h3⟩ := ih
    have hlt : s1.audioIndex < s1.audioPlaylist.length := by
      rw [h2, h3]
      exact Nat.mod_lt _ hpos
    obtain ⟨t, -, hrun⟩ := playNextTrack_started w s1 (by rw [h3]; exact hne) hlt
      (by rw [h3]; exact hstart)
    refine ⟨{ s1 with audioIndex := (s1.audioIndex + 1) % s1.audioPlaylist.length
                      audioPlayer := .Playing
                      trace := s1.trace ++ [Ev.createAudioResource (some t), Ev.play t,
                        Ev.console .log "Now playing:"] }, ?_, ?_, h3⟩
    · simp [playNextTrackTimes, bind, JS.bind, h1, hrun]
    · simp only [h2, h3]
      exact Nat.mod_add_mod _ _ _

/-- C2 (cyclic playback): on a non-empty playlist of N tracks that all start,
with the cursor at 0, the k-th call to `playNextTrack` (k ≥ 1) returns, selects
and plays the track at index (k-1) mod N, which is defined, and leaves the
cursor at k mod N, inside [0, N), with the playlist unchanged; the (N+1)-th
call plays the first track again. -/
theorem playNextTrack_cyclic (w : World) (s : State) (k : Nat)
    (hne : s.audioPlaylist ≠ []) (hidx : s.audioIndex = 0)
    (hstart : ∀ t ∈ s.audioPlaylist, w.trackStarts t = true) (hk : 1 ≤ k) :
    ∃ s1 s2 t, playNextTrackTimes w (k - 1) s = .ok () s1 ∧ playNextTrack w s1 = .ok () s2 ∧
      playNextTrackTimes w k s = .ok () s2 ∧
      s.audioPlaylist[(k - 1) % s.audioPlaylist.length]? = some t ∧
      s2.trace = s1.trace ++ [Ev.createAudioResource (some t), Ev.play t,
        Ev.console .log "Now playing:"] ∧
      s2.audioIndex = k % s.audioPlaylist.length ∧ s2.audioIndex < s.audioPlaylist.length ∧
      s2.audioPlaylist = s.audioPlaylist ∧
      (k = s.audioPlaylist.length + 1 → s.audioPlaylist[0]? = some t) := by
  have hpos : 0 < s.audioPlaylist.length := List.length_pos.mpr hne
  obtain ⟨j, rfl⟩ : ∃ j, k = j + 1 := ⟨k - 1, by omega⟩
  simp only [Nat.add_sub_cancel]
  obtain ⟨s1, h1, h2, h3⟩ := playNextTrackTimes_ok w s hne hidx hstart j
  have hlt : s1.audioIndex < s1.audioPlaylist.length := by
    rw [h2, h3]
    exact Nat.mod_lt _ hpos
  obtain ⟨t, ht, hrun⟩ := playNextTrack_started w s1 (by rw [h3]; exact hne) hlt
    (by rw [h3]; exact hstart)
  have hcur : (s1.audioIndex + 1) % s1.audioPlaylist.length = (j + 1) % s.audioPlaylist.length := by
    rw [h2, h3, Nat.mod_add_mod]
  refine ⟨s1, { s1 with audioIndex := (s1.audioIndex + 1) % s1.audioPlaylist.length
                        audioPlayer := .Playing
                        trace := s1.trace ++ [Ev.createAudioResource (some t), Ev.play t,
                          Ev.console .log "Now playing:"] }, t, h1, hrun, ?_, ?_, rfl, hcur, ?_, h3, ?_⟩
  · simp only [playNextTrackTimes, bind, JS.bind, h1]
    exact hrun
  · rw [← h2, ← h3]
    exact ht
  · show (s1.audioIndex + 1) % s1.audioPlaylist.length < s.audioPlaylist.length
    rw [hcur]
    exact Nat.mod_lt _ hpos
  · intro hN
    have hj : j = s.audioPlaylist.length := by omega
    have : j % s.audioPlaylist.length = 0 := by
      rw [hj]
      simp
    rw [← this, ← h2, ← h3]
    exact ht

theorem playNextTrack_cyclic_witness :
    ∃ s1 s2 t, playNextTrackTimes exampleWorld 3 { connectedState with audioIndex := 0 } = .ok () s1 ∧
      playNextTrack exampleWorld s1 = .ok () s2 ∧
      ({ connectedState with audioIndex := 0 } : State).audioPlaylist[0]? = some t ∧
      s2.audioIndex = 1 := by
  obtain ⟨s1, s2, t, h1, h2, -, -, -, h6, -, -, h9⟩ :=
    playNextTrack_cyclic exampleWorld { connectedState with audioIndex := 0 } 4
      (by decide) rfl (fun _ _ => rfl) (by decide)
  exact ⟨s1, s2, t, h1, h2, h9 rfl, h6⟩

/-! ## C6 -/

theorem attempts_append (a b : List Ev) : attempts (a ++ b) = attempts a ++ attempts b := by
  simp [attempts, List.filterMap_append]

theorem timers_append (a b : List Ev) : timers (a ++ b) = timers a ++ timers b := by
  simp [timers, List.filterMap_append]

theorem playNextTrackFuel_all_fail (w : World) :
    ∀ (fuel : Nat) (s : State), s.audioPlaylist ≠ [] → s.audioIndex < s.audioPlaylist.length →
      (∀ t ∈ s.audioPlaylist, w.trackStarts t = false) → s.conditionsMet = true →
      s.voiceConnection.isSome = true → s.audioPlaylist.length - s.audioIndex ≤ fuel →
      ∃ evs, playNextTrackFuel w fuel s = .ok () { s with audioIndex := 0, trace := s.trace ++ evs } ∧
        attempts evs = (s.audioPlaylist.drop s.audioIndex).map some ∧
        timers evs = [1000] ∧ evs.getLast? = some (Ev.setTimeout 1000) := by
  intro fuel
  induction fuel with
  | zero =>
    intro s _ hidx _ _ _ hfuel
    omega
  | succ fuel ih =>
    intro s hne hidx hfail hcm hvc hfuel
    have hf : ∀ t, s.audioPlaylist[s.audioIndex]? = some t → w.trackStarts t = false := by
      intro t ht
      exact hfail t (List.getElem?_mem ht)
    have hdrop : s.audioPlaylist.drop s.audioIndex =
        s.audioPlaylist[s.audioIndex] :: s.audioPlaylist.drop (s.audioIndex + 1) :=
      List.drop_eq_getElem_cons hidx
    have hget : s.audioPlaylist[s.audioIndex]? = some s.audioPlaylist[s.audioIndex] :=
      List.getElem?_eq_getElem hidx
    by_cases hw : (s.audioIndex + 1) % s.audioPlaylist.length = 0
    · have hlast : s.audioIndex + 1 = s.audioPlaylist.length := by
        by_contra hne2
        rw [Nat.mod_eq_of_lt (by omega)] at hw
        omega
      refine ⟨_, playNextTrackFuel_wrapped w fuel s hne hf hw, ?_, rfl, rfl⟩
      rw [hdrop, hlast, List.drop_length, hget]
      rfl
    · have hnext : (s.audioIndex + 1) % s.audioPlaylist.length = s.audioIndex + 1 := by
        apply Nat.mod_eq_of_lt
        by_contra hge
        have : s.audioIndex + 1 = s.audioPlaylist.length := by omega
        rw [this, Nat.mod_self] at hw
        exact hw rfl
      have hlt : s.audioIndex + 1 < s.audioPlaylist.length := by
        rw [← hnext]
        exact Nat.mod_lt _ (by omega)
      rw [playNextTrackFuel_retry w fuel s hne hf hw hcm hvc, hnext]
      obtain ⟨evs, hrun, hatt, htim, hlast⟩ := ih
        { s with audioIndex := s.audioIndex + 1
                 trace := s.trace ++ [Ev.createAudioResource s.audioPlaylist[s.audioIndex]?,
                   Ev.console .error "Failed to play track",
                   Ev.call .playNextTrack .playNextTrack] }
        hne hlt hfail hcm hvc (by simp only; omega)
      refine ⟨[Ev.createAudioResource s.audioPlaylist[s.audioIndex]?,
          Ev.console .error "Failed to play track",
          Ev.call .playNextTrack .playNextTrack] ++ evs, ?_, ?_, ?_, ?_⟩
      · rw [hrun]
        simp
      · rw [attempts_append, hatt, hdrop, hget]
        rfl
      · rw [timers_append, htim]
        rfl
      · rw [List.getLast?_append, hlast]
        rfl

theorem callsBy_of_internal (f : Fn) (hf1 : f ≠ .connectToVoice) (hf2 : f ≠ .playNextTrack)
    (evs : List Ev) (h : ∀ e ∈ evs, Ev.internal e = true) : callsBy f evs = [] := by
  apply List.filterMap_eq_nil_iff.mpr
  intro e he
  cases e with
  | call caller callee =>
    by_cases hc : caller = f
    · subst hc
      rcases caller_of_internal evs h _ _ he with h1 | ⟨h1, -⟩
      · exact absurd h1 hf1
      · exact absurd h1 hf2
    · simp [hc]
  | _ => rfl

/-- C6, as stated, fails in its last clause: passes are also started by the
evaluator (lines 274 and 275), whatever timers are pending.  Every start
throws.  With two evaluations less than 1000 ms apart (`CHECK_INTERVAL_MS` is
any positive number), the first connects and runs a pass that ends by setting
a timer, and the second, finding the player idle, runs a second pass at once:
six attempts and two timers of 1000 ms pending, with no timer fired.  When the
timer fires between the two evaluations the count of timers set is three for
one fired, so that two chains of retries run side by side from then on. -/
theorem evaluateConditions_starts_pass_before_backoff :
    (∃ s1 s2, evaluateConditions { exampleWorld with trackStarts := fun _ => false } initialState
        = .ok () s1 ∧
      evaluateConditions { exampleWorld with trackStarts := fun _ => false } s1 = .ok () s2 ∧
      Reachable s2 ∧
      s1.conditionsMet = true ∧ s1.voiceConnection.isSome = true ∧ s1.audioPlaylist.length = 3 ∧
      (attempts s1.trace).length = 3 ∧ timers s1.trace = [1000] ∧
      (attempts s2.trace).length = 6 ∧ timers s2.trace = [1000, 1000] ∧
      callsBy .retryTimer s2.trace = [] ∧
      callsBy .evaluateConditions s2.trace =
        [.getGuild, .isKickLive, .isTargetUserInVoice, .connectToVoice,
         .getGuild, .isKickLive, .isTargetUserInVoice, .playNextTrack]) ∧
    ∃ s1 s2 s3, evaluateConditions { exampleWorld with trackStarts := fun _ => false } initialState
        = .ok () s1 ∧
      retryTimer { exampleWorld with trackStarts := fun _ => false } s1 = .ok () s2 ∧
      evaluateConditions { exampleWorld with trackStarts := fun _ => false } s2 = .ok () s3 ∧
      Reachable s3 ∧
      (attempts s3.trace).length = 9 ∧ timers s3.trace = [1000, 1000, 1000] ∧
      callsBy .retryTimer s3.trace = [.playNextTrack] :=
  ⟨⟨_, _, rfl, rfl,
      Reachable.step (Reachable.step Reachable.start
        (Step.tick { exampleWorld with trackStarts := fun _ => false } rfl))
        (Step.tick { exampleWorld with trackStarts := fun _ => false } rfl),
      rfl, rfl, rfl, by decide, by decide, by decide, by decide, by decide, by decide⟩,
    _, _, _, rfl, rfl, rfl,
      Reachable.step (Reachable.step (Reachable.step Reachable.start
        (Step.tick { exampleWorld with trackStarts := fun _ => false } rfl))
        (Step.retry { exampleWorld with trackStarts := fun _ => false } rfl))
        (Step.tick { exampleWorld with trackStarts := fun _ => false } rfl),
      by decide, by decide, by decide⟩

/-- C6 (failure-loop guard), amended: on a non-empty playlist of N tracks with the
cursor at c in [0, N), when every start throws while `conditionsMet` holds and
a connection is held, one call to `playNextTrack` returns, for every fuel of
at least N - c and so without an unbounded synchronous loop.  It has made
exactly N - c start attempts, at most N, one per track from index c to the end
of the playlist; the cursor has wrapped to 0; exactly one timer has been set,
with a delay of 1000 ms, and it is the last thing the call does, so no attempt
follows the wrap synchronously.  The callback of that timer calls
`playNextTrack` once, which tries the N tracks once and again ends by setting
one timer of 1000 ms.  Nothing is said of the passes that other callers start. -/
theorem playNextTrack_failure_loop_guard (w : World) (s : State) (fuel : Nat)
    (hne : s.audioPlaylist ≠ []) (hidx : s.audioIndex < s.audioPlaylist.length)
    (hfail : ∀ t ∈ s.audioPlaylist, w.trackStarts t = false)
    (hcm : s.conditionsMet = true) (hvc : s.voiceConnection.isSome = true)
    (hfuel : s.audioPlaylist.length - s.audioIndex ≤ fuel) :
    ∃ s1 evs, playNextTrackFuel w fuel s = .ok () s1 ∧ playNextTrack w s = .ok () s1 ∧
      s1 = { s with audioIndex := 0, trace := s.trace ++ evs } ∧
      attempts evs = (s.audioPlaylist.drop s.audioIndex).map some ∧
      (attempts evs).length = s.audioPlaylist.length - s.audioIndex ∧
      (attempts evs).length ≤ s.audioPlaylist.length ∧
      timers evs = [1000] ∧ evs.getLast? = some (Ev.setTimeout 1000) ∧
      ∃ s2 evs2, retryTimer w s1 = .ok () s2 ∧
        s2 = { s1 with trace := s1.trace ++ evs2 } ∧
        callsBy .retryTimer evs2 = [.playNextTrack] ∧
        attempts evs2 = s.audioPlaylist.map some ∧
        timers evs2 = [1000] ∧ evs2.getLast? = some (Ev.setTimeout 1000) := by
  rcases s with ⟨vc, cm, cip, pl, idx, ap, tr⟩
  simp only at hne hidx hfail hcm hvc hfuel
  subst hcm
  obtain ⟨evs, hrun, hatt, htim, hlast⟩ :=
    playNextTrackFuel_all_fail w fuel ⟨vc, true, cip, pl, idx, ap, tr⟩ hne hidx hfail rfl hvc hfuel
  have hsame : playNextTrackFuel w (pl.length + 1) ⟨vc, true, cip, pl, idx, ap, tr⟩ =
      playNextTrackFuel w fuel ⟨vc, true, cip, pl, idx, ap, tr⟩ := by
    apply playNextTrackFuel_fuel_irrelevant
    · exact depthBound_le_default _
    · unfold depthBound
      simp only
      rw [if_pos hidx]
      exact hfuel
  simp only at hrun hatt
  have hlen : (attempts evs).length = pl.length - idx := by
    rw [hatt]
    simp
  -- the pass started by the timer
  obtain ⟨evs2, hrun2, hatt2, htim2, hlast2⟩ :=
    playNextTrackFuel_all_fail w (pl.length + 1)
      ⟨vc, true, cip, pl, 0, ap, tr ++ evs ++ [Ev.call .retryTimer .playNextTrack]⟩
      hne (List.length_pos.mpr hne) hfail rfl hvc (by show pl.length - 0 ≤ pl.length + 1; omega)
  obtain ⟨s3, hrun3, ⟨-, evs3, htr3, hint3⟩, -⟩ := playNextTrackFuel_ok w (pl.length + 1)
      ⟨vc, true, cip, pl, 0, ap, tr ++ evs ++ [Ev.call .retryTimer .playNextTrack]⟩
      (depthBound_le_default _)
  have hint2 : ∀ e ∈ evs2, Ev.internal e = true := by
    rw [hrun2] at hrun3
    cases hrun3
    simp only at htr3
    rw [List.append_cancel_left htr3]
    exact hint3
  simp only at hrun2 hatt2
  refine ⟨⟨vc, true, cip, pl, 0, ap, tr ++ evs⟩, evs, hrun, by rw [← hrun]; exact hsame, rfl,
    hatt, hlen, (by show _ ≤ pl.length; omega), htim, hlast,
    ⟨vc, true, cip, pl, 0, ap, tr ++ evs ++ (Ev.call .retryTimer .playNextTrack :: evs2)⟩,
    Ev.call .retryTimer .playNextTrack :: evs2, ?_, rfl, ?_, ?_, ?_, ?_⟩
  · simp only [retryTimer, bind, JS.bind, getState, hvc, Bool.and_self, if_true, emit,
      modifyState, playNextTrack]
    rw [hrun2]
    simp
  · have : callsBy .retryTimer evs2 = [] :=
      callsBy_of_internal .retryTimer (by decide) (by decide) evs2 hint2
    simp only [callsBy, List.filterMap_cons] at this ⊢
    simp [this]
  · simp only [attempts, List.filterMap_cons] at hatt2 ⊢
    simpa using hatt2
  · simp only [timers, List.filterMap_cons] at htim2 ⊢
    simpa using htim2
  · show ([Ev.call .retryTimer .playNextTrack] ++ evs2).getLast? = _
    rw [List.getLast?_append, hlast2]
    rfl

theorem playNextTrack_failure_loop_guard_witness :
    ∃ s1 evs, playNextTrack ({ exampleWorld with trackStarts := fun _ => false }) connectedState = .ok () s1 ∧
      s1 = { connectedState with audioIndex := 0, trace := connectedState.trace ++ evs } ∧
      (attempts evs).length = 2 ∧ timers evs = [1000] := by
  obtain ⟨s1, evs, -, h2, h3, -, h5, -, h7, -⟩ :=
    playNextTrack_failure_loop_guard ({ exampleWorld with trackStarts := fun _ => false })
      connectedState 2 (by decide) (by decide) (fun _ _ => rfl) rfl rfl (by decide)
  exact ⟨s1, evs, h2, h3, h5, h7⟩

/-! ## C9 -/

theorem baseCompare_le (a b : String) : baseCompare a b ≤ 0 ↔ caseKey a ≤ caseKey b := by
  unfold baseCompare
  by_cases h1 : caseKey a < caseKey b
  · rw [if_pos h1]
    exact ⟨fun _ => le_of_lt h1, fun _ => by decide⟩
  · rw [if_neg h1]
    by_cases h2 : caseKey a = caseKey b
    · rw [if_pos h2]
      exact ⟨fun _ => le_of_eq h2, fun _ => le_refl _⟩
    · rw [if_neg h2]
      constructor
      · intro h
        exact absurd h (by decide)
      · intro h
        rcases lt_or_eq_of_le h with h3 | h3
        · exact absurd h3 h1
        · exact absurd h3 h2

/-- C9, as stated, fails: `a.mp3` and `A.mp3` compare equal at sensitivity
base, the sort is stable, and so two listings of the same two files in
opposite orders give two different playlists. -/
theorem refreshAudioPlaylist_order_depends_on_listing :
    List.Perm [(⟨"a.mp3", true⟩ : Dirent), ⟨"A.mp3", true⟩] [⟨"A.mp3", true⟩, ⟨"a.mp3", true⟩] ∧
    baseCompare "a.mp3" "A.mp3" = 0 ∧ baseCompare "A.mp3" "a.mp3" = 0 ∧
    ∃ s1 s2,
      refreshAudioPlaylist { exampleWorld with readdirSync := some [⟨"a.mp3", true⟩, ⟨"A.mp3", true⟩] }
        initialState = .ok () s1 ∧
      refreshAudioPlaylist { exampleWorld with readdirSync := some [⟨"A.mp3", true⟩, ⟨"a.mp3", true⟩] }
        initialState = .ok () s2 ∧
      s1.audioPlaylist = ["/app/audios/a.mp3", "/app/audios/A.mp3"] ∧
      s2.audioPlaylist = ["/app/audios/A.mp3", "/app/audios/a.mp3"] ∧
      s1.audioPlaylist ≠ s2.audioPlaylist :=
  ⟨List.Perm.swap _ _ _, by decide, by decide, _, _, rfl, rfl, by decide, by decide, by decide⟩

theorem refreshAudioPlaylist_run (w : World) (entries : List Dirent)
    (h : w.readdirSync = some entries) (t : State) :
    ∃ s1, refreshAudioPlaylist w t = .ok () s1 ∧ s1.audioIndex = 0 ∧
      s1.audioPlaylist = (sortedNames w entries).map (pathJoin w.config.AUDIO_DIRECTORY) := by
  by_cases hl : sortedNames w entries = []
  · refine ⟨{ t with audioPlaylist := (sortedNames w entries).map (pathJoin w.config.AUDIO_DIRECTORY)
                     audioIndex := 0
                     trace := t.trace ++ [Ev.readdir,
                       Ev.console .warn "No MP3 files found in audios/. The bot will not play anything."] },
      ?_, rfl, rfl⟩
    simp [refreshAudioPlaylist, h, hl, tryCatch, bind, JS.bind, getState, pure, JS.pure, emit,
      modifyState]
  · refine ⟨{ t with audioPlaylist := (sortedNames w entries).map (pathJoin w.config.AUDIO_DIRECTORY)
                     audioIndex := 0
                     trace := t.trace ++ [Ev.readdir] }, ?_, rfl, rfl⟩
    simp [refreshAudioPlaylist, h, hl, tryCatch, bind, JS.bind, getState, pure, JS.pure, emit,
      modifyState]

theorem sortedNames_perm (w : World) (es1 es2 : List Dirent) (hperm : es1.Perm es2)
    (htotal : ∀ a b, w.localeCompare a b ≤ 0 ∨ w.localeCompare b a ≤ 0)
    (htrans : ∀ a b c, w.localeCompare a b ≤ 0 → w.localeCompare b c ≤ 0 →
      w.localeCompare a c ≤ 0)
    (hties : ∀ a ∈ es1, ∀ b ∈ es1, eligible a = true → eligible b = true →
      w.localeCompare a.name b.name ≤ 0 → w.localeCompare b.name a.name ≤ 0 → a.name = b.name) :
    sortedNames w es1 = sortedNames w es2 := by
  haveI : IsTotal String (fun a b => w.localeCompare a b ≤ 0) := ⟨htotal⟩
  haveI : IsTrans String (fun a b => w.localeCompare a b ≤ 0) := ⟨htrans⟩
  have hp : (sortedNames w es1).Perm (sortedNames w es2) := by
    unfold sortedNames
    exact (List.perm_insertionSort _ _).trans
      ((((hperm.filter _).map _)).trans (List.perm_insertionSort _ _).symm)
  have hs1 : (sortedNames w es1).Pairwise (fun a b => w.localeCompare a b ≤ 0) :=
    List.sorted_insertionSort _ _
  have hs2 : (sortedNames w es2).Pairwise (fun a b => w.localeCompare a b ≤ 0) :=
    List.sorted_insertionSort _ _
  have hmem : ∀ x, x ∈ sortedNames w es1 → ∃ a ∈ es1, eligible a = true ∧ a.name = x := by
    intro x hx
    unfold sortedNames at hx
    rw [List.mem_insertionSort] at hx
    obtain ⟨a, ha, rfl⟩ := List.mem_map.mp hx
    obtain ⟨ha1, ha2⟩ := List.mem_filter.mp ha
    exact ⟨a, ha1, ha2, rfl⟩
  refine List.Perm.eq_of_sorted ?_ hs1 hs2 hp
  intro x y hx hy hxy hyx
  obtain ⟨a, ha, hae, rfl⟩ := hmem x hx
  obtain ⟨b, hb, hbe, rfl⟩ := hmem y (hp.symm.subset hy)
  exact hties a ha b hb hae hbe hxy hyx

/-- C9 (playlist determinism), amended: two refreshes over the same
directory and comparator end with the cursor at 0, and with the same playlist
when the two listings are the same list.  When the listings are only
permutations of each other, the playlists are the same provided the comparator
is a total preorder under which no two eligible entries of different names
compare equal; entries that tie (names differing only in case or accents) keep
the order of the listing. -/
theorem refreshAudioPlaylist_deterministic (w1 w2 : World) (es1 es2 : List Dirent)
    (t1 t2 : State) (hdir : w1.config.AUDIO_DIRECTORY = w2.config.AUDIO_DIRECTORY)
    (hcmp : w1.localeCompare = w2.localeCompare)
    (h1 : w1.readdirSync = some es1) (h2 : w2.readdirSync = some es2) :
    ∃ s1 s2, refreshAudioPlaylist w1 t1 = .ok () s1 ∧ refreshAudioPlaylist w2 t2 = .ok () s2 ∧
      s1.audioIndex = 0 ∧ s2.audioIndex = 0 ∧
      (es1 = es2 → s1.audioPlaylist = s2.audioPlaylist) ∧
      (es1.Perm es2 →
        (∀ a b, w1.localeCompare a b ≤ 0 ∨ w1.localeCompare b a ≤ 0) →
        (∀ a b c, w1.localeCompare a b ≤ 0 → w1.localeCompare b c ≤ 0 →
          w1.localeCompare a c ≤ 0) →
        (∀ a ∈ es1, ∀ b ∈ es1, eligible a = true → eligible b = true →
          w1.localeCompare a.name b.name ≤ 0 → w1.localeCompare b.name a.name ≤ 0 →
          a.name = b.name) →
        s1.audioPlaylist = s2.audioPlaylist) := by
  obtain ⟨s1, hr1, hi1, hp1⟩ := refreshAudioPlaylist_run w1 es1 h1 t1
  obtain ⟨s2, hr2, hi2, hp2⟩ := refreshAudioPlaylist_run w2 es2 h2 t2
  have hsame : ∀ es, sortedNames w2 es = sortedNames w1 es := by
    intro es
    simp only [sortedNames, hcmp]
  refine ⟨s1, s2, hr1, hr2, hi1, hi2, ?_, ?_⟩
  · intro he
    rw [hp1, hp2, hdir, he, hsame]
  · intro hperm htotal htrans hties
    rw [hp1, hp2, hdir, hsame, sortedNames_perm w1 es1 es2 hperm htotal htrans hties]

theorem refreshAudioPlaylist_deterministic_witness :
    ∃ s1 s2,
      refreshAudioPlaylist { exampleWorld with readdirSync := some [⟨"b.mp3", true⟩, ⟨"A.mp3", true⟩] }
        initialState = .ok () s1 ∧
      refreshAudioPlaylist { exampleWorld with readdirSync := some [⟨"A.mp3", true⟩, ⟨"b.mp3", true⟩] }
        connectedState = .ok () s2 ∧
      s1.audioPlaylist = s2.audioPlaylist := by
  obtain ⟨s1, s2, h1, h2, -, -, -, h6⟩ := refreshAudioPlaylist_deterministic
    { exampleWorld with readdirSync := some [⟨"b.mp3", true⟩, ⟨"A.mp3", true⟩] }
    { exampleWorld with readdirSync := some [⟨"A.mp3", true⟩, ⟨"b.mp3", true⟩] }
    [⟨"b.mp3", true⟩, ⟨"A.mp3", true⟩] [⟨"A.mp3", true⟩, ⟨"b.mp3", true⟩]
    initialState connectedState rfl rfl rfl rfl
  refine ⟨s1, s2, h1, h2, h6 (List.Perm.swap _ _ _) ?_ ?_ ?_⟩
  · intro a b
    show baseCompare a b ≤ 0 ∨ baseCompare b a ≤ 0
    rw [baseCompare_le, baseCompare_le]
    exact le_total _ _
  · intro a b c
    show baseCompare a b ≤ 0 → baseCompare b c ≤ 0 → baseCompare a c ≤ 0
    rw [baseCompare_le, baseCompare_le, baseCompare_le]
    exact le_trans
  · intro a ha b hb _ _
    simp only [List.mem_cons, List.mem_singleton, List.not_mem_nil, or_false] at ha hb
    rcases ha with rfl | rfl <;> rcases hb with rfl | rfl <;> decide

/-! ## The invariant of the cursor -/

/-! Rules for any relation between the first and the last state of a run. -/

theorem keeps_pure_of {α : Type} {R : State → State → Prop} (hr : ∀ s, R s s) (a : α) :
    Keeps R (pure a : JS α) :=
  ⟨fun s => Or.inl ⟨a, s, rfl, hr s⟩⟩

theorem keeps_throwJs_of {α : Type} {R : State → State → Prop} (hr : ∀ s, R s s) (e : JsError) :
    Keeps R (throwJs e : JS α) :=
  ⟨fun s => Or.inr ⟨e, s, rfl, hr s⟩⟩

theorem keeps_getState_of {R : State → State → Prop} (hr : ∀ s, R s s) : Keeps R getState :=
  ⟨fun s => Or.inl ⟨s, s, rfl, hr s⟩⟩

theorem keeps_modifyState_of {R : State → State → Prop} (f : State → State)
    (h : ∀ s, R s (f s)) : Keeps R (modifyState f) :=
  ⟨fun s => Or.inl ⟨(), f s, rfl, h s⟩⟩

theorem keeps_emit_of {R : State → State → Prop} (e : Ev)
    (h : ∀ s : State, R s { s with trace := s.trace ++ [e] }) : Keeps R (emit e) :=
  ⟨fun s => Or.inl ⟨(), _, rfl, h s⟩⟩

theorem keeps_liftExcept_of {α : Type} {R : State → State → Prop} (hr : ∀ s, R s s)
    (x : Except JsError α) : Keeps R (liftExcept x) := by
  cases x with
  | ok a => exact ⟨fun s => Or.inl ⟨a, s, rfl, hr s⟩⟩
  | error e => exact ⟨fun s => Or.inr ⟨e, s, rfl, hr s⟩⟩

theorem keeps_bind_of {α β : Type} {R : State → State → Prop}
    (ht : ∀ a b c, R a b → R b c → R a c) {m : JS α} {k : α → JS β}
    (hm : Keeps R m) (hk : ∀ a, Keeps R (k a)) : Keeps R (m >>= k) := by
  constructor
  intro s
  rcases hm.run s with ⟨a, s1, h1, r1⟩ | ⟨e, s1, h1, r1⟩
  · rcases (hk a).run s1 with ⟨b, s2, h2, r2⟩ | ⟨e, s2, h2, r2⟩
    · exact Or.inl ⟨b, s2, by simp [Bind.bind, JS.bind, h1, h2], ht _ _ _ r1 r2⟩
    · exact Or.inr ⟨e, s2, by simp [Bind.bind, JS.bind, h1, h2], ht _ _ _ r1 r2⟩
  · exact Or.inr ⟨e, s1, by simp [Bind.bind, JS.bind, h1], r1⟩

theorem keeps_tryCatch_of {α : Type} {R : State → State → Prop}
    (ht : ∀ a b c, R a b → R b c → R a c) {body : JS α} {handler : JsError → JS α}
    (hb : Keeps R body) (hh : ∀ e, Keeps R (handler e)) : Keeps R (tryCatch body handler) := by
  constructor
  intro s
  rcases hb.run s with ⟨a, s1, h1, r1⟩ | ⟨e, s1, h1, r1⟩
  · exact Or.inl ⟨a, s1, by simp [AntiTriskelBot.tryCatch, h1], r1⟩
  · rcases (hh e).run s1 with ⟨b, s2, h2, r2⟩ | ⟨e2, s2, h2, r2⟩
    · exact Or.inl ⟨b, s2, by simp [AntiTriskelBot.tryCatch, h1, h2], ht _ _ _ r1 r2⟩
    · exact Or.inr ⟨e2, s2, by simp [AntiTriskelBot.tryCatch, h1, h2], ht _ _ _ r1 r2⟩

/-! ## The cursor is at 0 whenever no connection is held -/

theorem safe_refl (s : State) : Safe s s := fun h => h

theorem safe_trans (a b c : State) (h1 : Safe a b) (h2 : Safe b c) : Safe a c :=
  fun h => h2 (h1 h)

theorem heldStays_refl (s : State) : HeldStays s s := fun h => h

theorem heldStays_trans (a b c : State) (h1 : HeldStays a b) (h2 : HeldStays b c) :
    HeldStays a c := fun h => h2 (h1 h)

theorem Parked.of_held {s : State} (h : s.voiceConnection.isSome = true) : Parked s := by
  intro hn
  rw [hn] at h
  cases h

theorem Parked.of_zero {s : State} (h : s.audioIndex = 0) : Parked s := fun _ => h

/-- The run of `playNextTrack` leaves the connection handle as it is. -/
theorem playNextTrackFuel_voiceConnection (w : World) :
    ∀ (fuel : Nat) (s : State), depthBound s ≤ fuel →
      ∃ s1, playNextTrackFuel w fuel s = .ok () s1 ∧ s1.voiceConnection = s.voiceConnection := by
  intro fuel
  induction fuel with
  | zero =>
    intro s h
    have := depthBound_pos s
    omega
  | succ fuel ih =>
    intro s hb
    by_cases hp : s.audioPlaylist = []
    · exact ⟨s, playNextTrackFuel_empty w fuel s hp, rfl⟩
    by_cases hs : ∃ t, s.audioPlaylist[s.audioIndex]? = some t ∧ w.trackStarts t = true
    · obtain ⟨t, ht, hs⟩ := hs
      exact ⟨_, playNextTrackFuel_started w fuel s t hp ht hs, rfl⟩
    have hf : ∀ t, s.audioPlaylist[s.audioIndex]? = some t → w.trackStarts t = false := by
      intro t ht
      cases h : w.trackStarts t
      · rfl
      · exact absurd ⟨t, ht, h⟩ hs
    by_cases hw : (s.audioIndex + 1) % s.audioPlaylist.length = 0
    · exact ⟨_, playNextTrackFuel_wrapped w fuel s hp hf hw, rfl⟩
    by_cases hc : s.conditionsMet = true ∧ s.voiceConnection.isSome = true
    · rw [playNextTrackFuel_retry w fuel s hp hf hw hc.1 hc.2]
      obtain ⟨s1, h1, h2⟩ := ih _ (depthBound_next s _ fuel hp hw hb)
      exact ⟨s1, h1, h2⟩
    · exact ⟨_, playNextTrackFuel_giveUp w fuel s hp hf hw hc, rfl⟩

theorem playNextTrack_voiceConnection (w : World) (s : State) :
    ∃ s1, playNextTrack w s = .ok () s1 ∧ s1.voiceConnection = s.voiceConnection :=
  playNextTrackFuel_voiceConnection w (s.audioPlaylist.length + 1) s (depthBound_le_default s)

theorem playNextTrack_heldStays (w : World) : Keeps HeldStays (playNextTrack w) := by
  constructor
  intro s
  obtain ⟨s1, h1, h2⟩ := playNextTrack_voiceConnection w s
  exact Or.inl ⟨(), s1, h1, fun h => by rw [h2]; exact h⟩

theorem disconnectFromVoice_safe : Keeps Safe disconnectFromVoice := by
  constructor
  intro s
  obtain ⟨evs, -, -, h⟩ := disconnectFromVoice_run s.voiceConnection
  exact Or.inl ⟨(), _, h s rfl, fun _ => Parked.of_zero rfl⟩

theorem refreshAudioPlaylist_safe (w : World) : Keeps Safe (refreshAudioPlaylist w) := by
  constructor
  intro s
  rcases hr : w.readdirSync with _ | entries
  · obtain ⟨logs, -, h⟩ := refreshAudioPlaylist_empty w (fun entries he => by
      rw [hr] at he
      cases he)
    exact Or.inl ⟨(), _, h s, fun _ => Parked.of_zero rfl⟩
  · obtain ⟨s1, h1, h2, -⟩ := refreshAudioPlaylist_run w entries hr s
    exact Or.inl ⟨(), s1, h1, fun _ => Parked.of_zero h2⟩

theorem getGuild_safe (w : World) : Keeps Safe (getGuild w) := by
  constructor
  intro s
  obtain ⟨g, evs, -, -, h⟩ := getGuild_run w
  exact Or.inl ⟨g, _, h s, fun hp => hp⟩

theorem isKickLive_safe (w : World) : Keeps Safe (isKickLive w) := by
  constructor
  intro s
  obtain ⟨b, logs, -, h, -⟩ := isKickLive_run w
  exact Or.inl ⟨b, _, h s, fun hp => hp⟩

theorem isTargetUserInVoice_safe (w : World) (guild : Guild) :
    Keeps Safe (isTargetUserInVoice w guild) := by
  constructor
  intro s
  obtain ⟨b, evs, -, -, h⟩ := isTargetUserInVoice_run w guild
  exact Or.inl ⟨b, _, h s, fun hp => hp⟩

/-- After the handle is stored (line 197) it is held to the end of the try
block, and the catch block ends in `disconnectFromVoice`. -/
theorem keeps_safe_after_join {m : JS Unit} {body : JS Unit} {handler : JsError → JS Unit}
    (hm : ∀ s, ∃ s1, m s = .ok () s1 ∧ s1.voiceConnection.isSome = true)
    (hb : Keeps HeldStays body) (hh : ∀ e, Keeps Safe (handler e)) :
    Keeps Safe (m >>= fun _ => tryCatch body handler) := by
  constructor
  intro s
  obtain ⟨s1, h1, hheld⟩ := hm s
  rcases hb.run s1 with ⟨a, s2, h2, r2⟩ | ⟨e, s2, h2, r2⟩
  · exact Or.inl ⟨a, s2, by simp [Bind.bind, JS.bind, h1, AntiTriskelBot.tryCatch, h2],
      fun _ => Parked.of_held (r2 hheld)⟩
  · rcases (hh e).run s2 with ⟨b, s3, h3, r3⟩ | ⟨e3, s3, h3, r3⟩
    · exact Or.inl ⟨b, s3, by simp [Bind.bind, JS.bind, h1, AntiTriskelBot.tryCatch, h2, h3],
        fun _ => r3 (Parked.of_held (r2 hheld))⟩
    · exact Or.inr ⟨e3, s3, by simp [Bind.bind, JS.bind, h1, AntiTriskelBot.tryCatch, h2, h3],
        fun _ => r3 (Parked.of_held (r2 hheld))⟩

theorem connectToVoice_safe (w : World) (guild : Guild) : Keeps Safe (connectToVoice w guild) := by
  unfold connectToVoice
  repeat' first
    | exact keeps_pure_of safe_refl _
    | exact keeps_getState_of safe_refl
    | exact keeps_throwJs_of safe_refl _
    | exact keeps_liftExcept_of safe_refl _
    | exact refreshAudioPlaylist_safe w
    | exact disconnectFromVoice_safe
    | exact playNextTrack_heldStays w
    | exact keeps_pure_of heldStays_refl _
    | exact keeps_getState_of heldStays_refl
    | exact keeps_throwJs_of heldStays_refl _
    | exact keeps_emit_of _ (fun s hp => hp)
    | exact keeps_modifyState_of _ (fun s h => by
        cases hv : s.voiceConnection <;> simp_all [HeldStays])
    | exact fun s => ⟨_, rfl, rfl⟩
    | refine keeps_safe_after_join ?_ ?_ ?_
    | apply keeps_bind_of safe_trans
    | apply keeps_bind_of heldStays_trans
    | apply keeps_tryCatch_of safe_trans
    | intro _
    | split

theorem keeps_tryFinally_of {α : Type} {R : State → State → Prop} {body : JS α}
    {cleanup : State → State} (hb : Keeps R body) (hc : ∀ a b, R a b → R a (cleanup b)) :
    Keeps R (tryFinally body cleanup) := by
  constructor
  intro s
  rcases hb.run s with ⟨a, s1, h1, r1⟩ | ⟨e, s1, h1, r1⟩
  · exact Or.inl ⟨a, cleanup s1, by simp [tryFinally, h1], hc _ _ r1⟩
  · exact Or.inr ⟨e, cleanup s1, by simp [tryFinally, h1], hc _ _ r1⟩

theorem Keeps.final {α : Type} {R : State → State → Prop} {m : JS α} (hm : Keeps R m)
    {s s1 : State} (h : (m s).final? = some s1) : R s s1 := by
  rcases hm.run s with ⟨a, s2, h2, r2⟩ | ⟨e, s2, h2, r2⟩
  · rw [h2] at h
    cases h
    exact r2
  · rw [h2] at h
    cases h
    exact r2

theorem evaluateConditionsAct_safe (w : World) (guild : Guild) (shouldConnect : Bool) :
    Keeps Safe (evaluateConditionsAct w guild shouldConnect) := by
  cases shouldConnect with
  | false =>
    unfold evaluateConditionsAct
    simp only [Bool.false_eq_true, if_false]
    repeat' first
      | exact keeps_pure_of safe_refl _
      | exact keeps_getState_of safe_refl
      | exact disconnectFromVoice_safe
      | exact keeps_emit_of _ (fun s hp => hp)
      | exact keeps_modifyState_of _ (fun s hp => hp)
      | apply keeps_bind_of safe_trans
      | intro _
      | split
  | true =>
    constructor
    rintro ⟨vc, cm, cip, pl, idx, ap, tr⟩
    by_cases hconn : vc.all (fun c => decide (c.status = .Destroyed)) = true
    · have hrun : evaluateConditionsAct w guild true ⟨vc, cm, cip, pl, idx, ap, tr⟩ =
          connectToVoice w guild
            ⟨vc, true, cip, pl, idx, ap, tr ++ [Ev.call .evaluateConditions .connectToVoice]⟩ := by
        simp [evaluateConditionsAct, bind, JS.bind, getState, emit, modifyState, hconn]
      rw [hrun]
      rcases (connectToVoice_safe w guild).run
          ⟨vc, true, cip, pl, idx, ap, tr ++ [Ev.call .evaluateConditions .connectToVoice]⟩
        with ⟨a, t1, h1, r1⟩ | ⟨e, t1, h1, r1⟩
      · exact Or.inl ⟨a, t1, h1, fun hp => r1 hp⟩
      · exact Or.inr ⟨e, t1, h1, fun hp => r1 hp⟩
    · have hheld : vc.isSome = true := by
        cases vc with
        | none => exact absurd rfl hconn
        | some c => rfl
      by_cases hplay : (decide (ap = .Idle) && decide (pl.length > 0)) = true
      · have hrun : evaluateConditionsAct w guild true ⟨vc, cm, cip, pl, idx, ap, tr⟩ =
            playNextTrack w
              ⟨vc, true, cip, pl, idx, ap, tr ++ [Ev.call .evaluateConditions .playNextTrack]⟩ := by
          simp only [Bool.and_eq_true, decide_eq_true_eq] at hplay
          simp [evaluateConditionsAct, bind, JS.bind, getState, emit, modifyState, hconn, hplay]
        rw [hrun]
        obtain ⟨s1, h1, h2⟩ := playNextTrack_voiceConnection w
          ⟨vc, true, cip, pl, idx, ap, tr ++ [Ev.call .evaluateConditions .playNextTrack]⟩
        exact Or.inl ⟨(), s1, h1, fun _ => Parked.of_held (by rw [h2]; exact hheld)⟩
      · refine Or.inl ⟨(), ⟨vc, true, cip, pl, idx, ap, tr⟩, ?_, fun hp => hp⟩
        have hplay2 := hplay
        simp only [Bool.and_eq_true, decide_eq_true_eq] at hplay2
        simp [evaluateConditionsAct, bind, JS.bind, getState, pure, JS.pure, emit, modifyState,
          hconn, hplay2]

theorem evaluateConditionsTry_safe (w : World) : Keeps Safe (evaluateConditionsTry w) := by
  unfold evaluateConditionsTry
  repeat' first
    | exact keeps_pure_of safe_refl _
    | exact disconnectFromVoice_safe
    | exact getGuild_safe w
    | exact isKickLive_safe w
    | exact isTargetUserInVoice_safe w _
    | exact evaluateConditionsAct_safe w _ _
    | exact keeps_emit_of _ (fun s hp => hp)
    | exact keeps_modifyState_of _ (fun s hp => hp)
    | apply keeps_bind_of safe_trans
    | intro _
    | split

theorem evaluateConditions_safe (w : World) : Keeps Safe (evaluateConditions w) := by
  unfold evaluateConditions
  apply keeps_bind_of safe_trans (keeps_getState_of safe_refl)
  intro s
  split
  · exact keeps_pure_of safe_refl _
  · refine keeps_bind_of safe_trans ?_ ?_
    · exact keeps_modifyState_of _ (fun s hp => hp)
    intro _
    exact keeps_tryFinally_of
      (keeps_tryCatch_of safe_trans (evaluateConditionsTry_safe w)
        (fun _ => keeps_emit_of _ (fun s hp => hp)))
      (fun a b hab hp => hab hp)

theorem onIdle_safe (w : World) : Keeps Safe (onIdle w) := by
  constructor
  rintro ⟨vc, cm, cip, pl, idx, ap, tr⟩
  rcases vc with _ | c
  · exact Or.inl ⟨(), ⟨none, cm, cip, pl, idx, ap, tr⟩,
      by simp [onIdle, bind, JS.bind, getState, pure, JS.pure], fun hp => hp⟩
  cases cm with
  | false =>
    exact Or.inl ⟨(), ⟨some c, false, cip, pl, idx, ap, tr⟩,
      by simp [onIdle, bind, JS.bind, getState, pure, JS.pure], fun hp => hp⟩
  | true =>
    by_cases hp : pl = []
    · rcases disconnectFromVoice_safe.run ⟨some c, true, cip, pl, idx, ap, tr ++
          [Ev.console .warn "Audio playlist is empty. Disconnecting from voice channel.",
           Ev.call .onIdle .disconnectFromVoice]⟩ with ⟨a, s1, h1, r1⟩ | ⟨e, s1, h1, r1⟩
      · refine Or.inl ⟨a, s1, ?_, fun hq => r1 hq⟩
        rw [← h1]
        simp [onIdle, bind, JS.bind, getState, hp, emit, modifyState]
      · refine Or.inr ⟨e, s1, ?_, fun hq => r1 hq⟩
        rw [← h1]
        simp [onIdle, bind, JS.bind, getState, hp, emit, modifyState]
    · obtain ⟨s1, h1, h2⟩ := playNextTrack_voiceConnection w
        ⟨some c, true, cip, pl, idx, ap, tr ++ [Ev.call .onIdle .playNextTrack]⟩
      refine Or.inl ⟨(), s1, ?_, fun _ => Parked.of_held (by rw [h2]; rfl)⟩
      rw [← h1]
      simp [onIdle, bind, JS.bind, getState, hp, emit, modifyState]

theorem retryTimer_safe (w : World) : Keeps Safe (retryTimer w) := by
  constructor
  rintro ⟨vc, cm, cip, pl, idx, ap, tr⟩
  rcases vc with _ | c
  · exact Or.inl ⟨(), ⟨none, cm, cip, pl, idx, ap, tr⟩,
      by simp [retryTimer, bind, JS.bind, getState, pure, JS.pure], fun hp => hp⟩
  cases cm with
  | false =>
    exact Or.inl ⟨(), ⟨some c, false, cip, pl, idx, ap, tr⟩,
      by simp [retryTimer, bind, JS.bind, getState, pure, JS.pure], fun hp => hp⟩
  | true =>
    obtain ⟨s1, h1, h2⟩ := playNextTrack_voiceConnection w
      ⟨some c, true, cip, pl, idx, ap, tr ++ [Ev.call .retryTimer .playNextTrack]⟩
    refine Or.inl ⟨(), s1, ?_, fun _ => Parked.of_held (by rw [h2]; rfl)⟩
    rw [← h1]
    simp [retryTimer, bind, JS.bind, getState, emit, modifyState]

theorem Step.safe {s s1 : State} (h : Step s s1) : Safe s s1 := by
  cases h with
  | tick w h => exact (evaluateConditions_safe w).final h
  | idle w h => exact (onIdle_safe w).final h
  | retry w h => exact (retryTimer_safe w).final h
  | disconnected h => exact disconnectFromVoice_safe.final h
  | player status => exact fun hp => hp
  | connection c c1 hc => exact fun _ => Parked.of_held rfl

/-- Whenever the program holds no connection its cursor is at 0: the cursor
moves only in `playNextTrack` (line 150), which every caller runs with a
handle held, and the handle is dropped only at line 242, which line 246
follows. -/
theorem reachable_parked {s : State} (h : Reachable s) : Parked s := by
  induction h with
  | start => exact fun _ => rfl
  | step _ hs ih => exact hs.safe ih

/-! ## C3 -/

/-- C3 (idempotence): from every state, also one whose handle throws on
`destroy`, `disconnectFromVoice` returns normally.  A handle that is held is
destroyed (`destroy` is called on it, and a throw is logged and goes no
further); then the player is stopped.  Afterwards no connection is held, the
player is idle and the cursor is 0, while the playlist, `conditionsMet` and
the lock are as before.  In every state the program can be in with no
connection held, the call attempts no `destroy` and leaves the handle, the
playlist, the cursor and `conditionsMet` unchanged (no variable at all changes
when the player is idle already).  A second call right after the first changes
no variable: two disconnects equal one. -/
theorem disconnectFromVoice_idempotent (s : State) :
    ∃ s1 s2 evs, disconnectFromVoice s = .ok () s1 ∧ disconnectFromVoice s1 = .ok () s2 ∧
      s1.trace = s.trace ++ evs ++ [Ev.stop] ∧
      s1.voiceConnection = none ∧ s1.audioPlayer = .Idle ∧ s1.audioIndex = 0 ∧
      s1.audioPlaylist = s.audioPlaylist ∧ s1.conditionsMet = s.conditionsMet ∧
      s1.checkInProgress = s.checkInProgress ∧
      (∀ c, s.voiceConnection = some c →
        evs = Ev.destroy ::
          (if c.destroyThrows then [Ev.console .error "Error destroying voice connection:"]
           else [])) ∧
      (s.voiceConnection = none → evs = []) ∧
      (Reachable s → s.voiceConnection = none →
        s1.voiceConnection = s.voiceConnection ∧ s1.audioPlaylist = s.audioPlaylist ∧
        s1.audioIndex = s.audioIndex ∧ s1.conditionsMet = s.conditionsMet ∧
        (s.audioPlayer = .Idle → s1.vars = s.vars)) ∧
      s2.vars = s1.vars ∧ s2.trace = s1.trace ++ [Ev.stop] := by
  have hparked : Reachable s → Parked s := reachable_parked
  rcases s with ⟨vc, cm, cip, pl, idx, ap, tr⟩
  have h2 : ∀ tr1 : List Ev, disconnectFromVoice ⟨none, cm, cip, pl, 0, .Idle, tr1⟩ =
      .ok () ⟨none, cm, cip, pl, 0, .Idle, tr1 ++ [Ev.stop]⟩ := by
    intro tr1
    simp [disconnectFromVoice, bind, JS.bind, getState, pure, JS.pure, emit, modifyState]
  rcases vc with _ | ⟨st, dt⟩
  · refine ⟨⟨none, cm, cip, pl, 0, .Idle, tr ++ [] ++ [Ev.stop]⟩, _, [], ?_, h2 _, rfl, rfl, rfl,
      rfl, rfl, rfl, rfl, ?_, fun _ => rfl, ?_, rfl, rfl⟩
    · simp [disconnectFromVoice, bind, JS.bind, getState, pure, JS.pure, emit, modifyState]
    · intro c hc
      cases hc
    · intro hr _
      have hidx : idx = 0 := hparked hr rfl
      subst hidx
      refine ⟨rfl, rfl, rfl, rfl, ?_⟩
      intro hp
      simp only at hp
      subst hp
      rfl
  · cases dt with
    | false =>
      refine ⟨⟨none, cm, cip, pl, 0, .Idle, tr ++ [Ev.destroy] ++ [Ev.stop]⟩, _, [Ev.destroy], ?_,
        h2 _, rfl, rfl, rfl, rfl, rfl, rfl, rfl, ?_, ?_, ?_, rfl, rfl⟩
      · simp [disconnectFromVoice, destroy, tryCatch, bind, JS.bind, getState, pure, JS.pure, emit,
          modifyState]
      · intro c hc
        cases hc
        rfl
      · intro hc
        cases hc
      · intro _ hc
        cases hc
    | true =>
      refine ⟨⟨none, cm, cip, pl, 0, .Idle, tr ++
          [Ev.destroy, Ev.console .error "Error destroying voice connection:"] ++ [Ev.stop]⟩, _,
        [Ev.destroy, Ev.console .error "Error destroying voice connection:"], ?_,
        h2 _, rfl, rfl, rfl, rfl, rfl, rfl, rfl, ?_, ?_, ?_, rfl, rfl⟩
      · simp [disconnectFromVoice, destroy, tryCatch, throwJs, bind, JS.bind, getState, pure,
          JS.pure, emit, modifyState]
      · intro c hc
        cases hc
        rfl
      · intro hc
        cases hc
      · intro _ hc
        cases hc

theorem disconnectFromVoice_idempotent_witness :
    (Reachable initialState ∧ initialState.voiceConnection = none ∧
      ∃ s1, disconnectFromVoice initialState = .ok () s1 ∧ s1.vars = initialState.vars) ∧
    ∃ s1 s2, disconnectFromVoice { connectedState with voiceConnection := some ⟨.Ready, true⟩ }
        = .ok () s1 ∧ disconnectFromVoice s1 = .ok () s2 ∧
      s1.voiceConnection = none ∧ s1.audioPlayer = .Idle ∧ s1.audioIndex = 0 ∧
      Ev.destroy ∈ s1.trace ∧ s2.vars = s1.vars := by
  constructor
  · obtain ⟨s1, s2, evs, h1, -, -, -, -, -, -, -, -, -, -, h, -, -⟩ :=
      disconnectFromVoice_idempotent initialState
    exact ⟨Reachable.start, rfl, s1, h1, (h Reachable.start rfl).2.2.2.2 rfl⟩
  · obtain ⟨s1, s2, evs, h1, h2, h3, h4, h5, h6, -, -, -, h7, -, -, h8, -⟩ :=
      disconnectFromVoice_idempotent { connectedState with voiceConnection := some ⟨.Ready, true⟩ }
    refine ⟨s1, s2, h1, h2, h4, h5, h6, ?_, h8⟩
    rw [h3, h7 _ rfl]
    simp

end AntiTriskelBot
